import Mathlib

/-!
Xpedite: PMU request-to-register translation and the perf events coordinator.

A shallow embedding of `lib/xpedite/pmu/EventSelect.c` (the builder that turns a
`PMUCtlRequest` into an `EventSelect` register image) and of the coordinator declared in
`include/xpedite/perf/PerfEventsCtl.H`, with theorems about both.

Conventions of the embedding:
* C unsigned integers are natural numbers; a store into a bit-field of width `w` keeps the
  value modulo `2 ^ w`;
* a C array is a map from index to element (`Nat → α`); the code only ever reads or writes
  the entries below the counts it has validated;
* a `for` loop running `i` from `0` to `count` is a structurally recursive function over the
  number of iterations left, carrying the index `i`;
* the `int` status of `buildEventSet` is an `Int`, its out-parameter is returned next to it.
-/

namespace Xpedite

/-! ## Data model -/

/-- Modelled from the spec: the constant `XPEDITE_PMC_CTRL_FIXED_EVENT_MAX` of the header
`xpedite/pmu/EventSelect.h`, which is not part of the sources at hand; the spec fixes the
number of fixed counters to 3. The two other maxima (`XPEDITE_PMC_CTRL_GP_EVENT_MAX`,
`XPEDITE_PMC_CTRL_OFFCORE_EVENT_MAX`) are parameters `gpMax` and `offcoreMax` below. -/
def XPEDITE_PMC_CTRL_FIXED_EVENT_MAX : Nat := 3

/-- Modelled from the spec: the record `PMUGpEvent` of the header `xpedite/pmu/EventSelect.h`
(not at hand). Fields are those read by `buildPerfEvtSelBitmask`; event select, unit mask and
counter mask are 8-bit quantities, the flags are integers tested against zero. -/
structure PMUGpEvent where
  _eventSelect : Nat
  _unitMask : Nat
  _user : Nat
  _kernel : Nat
  _invertCMask : Nat
  _counterMask : Nat
  _edgeDetect : Nat
  _anyThread : Nat
deriving DecidableEq, Repr

/-- Modelled from the spec: the record `PMUFixedEvent` of the header
`xpedite/pmu/EventSelect.h` (not at hand): a counter index and the two scope flags. -/
structure PMUFixedEvent where
  _ctrIndex : Nat
  _user : Nat
  _kernel : Nat
deriving DecidableEq, Repr

/-- Modelled from the spec: the record `PMUCtlRequest` of the header
`xpedite/pmu/EventSelect.h` (not at hand): three counts and three arrays of events; an
offcore event is an opaque 64-bit value. -/
structure PMUCtlRequest where
  _fixedEvtCount : Nat
  _gpEvtCount : Nat
  _offcoreEvtCount : Nat
  _fixedEvents : Nat → PMUFixedEvent
  _gpEvents : Nat → PMUGpEvent
  _offcoreEvents : Nat → Nat

/-- Modelled from the spec: the record `EventSelect` of the header
`xpedite/pmu/EventSelect.h` (not at hand): the two fixed-event registers, the arrays of
general-purpose and offcore registers, and the two counts. -/
structure EventSelect where
  _fixedEvtGlobalCtl : Nat
  _fixedEvtSel : Nat
  _gpEvtSel : Nat → Nat
  _offcoreEvtSel : Nat → Nat
  _gpEvtCount : Nat
  _offcoreEvtCount : Nat

/-- The value a bit-field of width `w` holds after `v` is stored into it. -/
def bitfield (w v : Nat) : Nat := v % 2 ^ w

/-- The C value of a comparison `x != 0`. -/
def neZero (x : Nat) : Nat := if x ≠ 0 then 1 else 0

/-! ## `buildPerfEvtSelBitmask` -/

/-- The local bit-field record `PerfEvtSelReg` of `buildPerfEvtSelBitmask`. -/
structure PerfEvtSelReg where
  _eventSelect : Nat
  _unitMask : Nat
  _user : Nat
  _kernel : Nat
  _edgeDetect : Nat
  _pinControl : Nat
  _interruptEn : Nat
  _anyThread : Nat
  _enable : Nat
  _invertCMask : Nat
  _counterMask : Nat
deriving DecidableEq, Repr

/-- The 32-bit member `_value` of the union: the bit-fields laid out in declaration order from
bit 0 upwards (widths 8, 8, 1, 1, 1, 1, 1, 1, 1, 1, 8), each contributing its value at its
bit offset. -/
def PerfEvtSelReg._value (r : PerfEvtSelReg) : Nat :=
  r._eventSelect + 2 ^ 8 * r._unitMask + 2 ^ 16 * r._user + 2 ^ 17 * r._kernel
    + 2 ^ 18 * r._edgeDetect + 2 ^ 19 * r._pinControl + 2 ^ 20 * r._interruptEn
    + 2 ^ 21 * r._anyThread + 2 ^ 22 * r._enable + 2 ^ 23 * r._invertCMask
    + 2 ^ 24 * r._counterMask

/-- The function `buildPerfEvtSelBitmask` of `EventSelect.c`. -/
def buildPerfEvtSelBitmask (e : PMUGpEvent) : Nat :=
  let r : PerfEvtSelReg :=
    { _eventSelect := bitfield 8 e._eventSelect
      _unitMask := bitfield 8 e._unitMask
      _user := bitfield 1 (neZero e._user)
      _kernel := bitfield 1 (neZero e._kernel)
      _edgeDetect := bitfield 1 (neZero e._edgeDetect)
      _pinControl := bitfield 1 0
      _interruptEn := bitfield 1 0
      _anyThread := bitfield 1 (neZero e._anyThread)
      _enable := bitfield 1 1
      _invertCMask := bitfield 1 (neZero e._invertCMask)
      _counterMask := bitfield 8 e._counterMask }
  r._value

/-! ## Fixed events -/

/-- The loop of `findFixedEvtForCtr`: `n` iterations left, at index `i`. -/
def findFixedEvtForCtr.loop (ctrIndex : Nat) (fixedEvents : Nat → PMUFixedEvent) :
    Nat → Nat → Option PMUFixedEvent
  | 0, _ => none
  | n + 1, i =>
    if (fixedEvents i)._ctrIndex = ctrIndex then some (fixedEvents i)
    else findFixedEvtForCtr.loop ctrIndex fixedEvents n (i + 1)

/-- The function `findFixedEvtForCtr` of `EventSelect.c`; the returned pointer is the event it
points to, `NULL` is `none`. -/
def findFixedEvtForCtr (ctrIndex : Nat) (fixedEvents : Nat → PMUFixedEvent)
    (fixedEvtCount : Nat) : Option PMUFixedEvent :=
  findFixedEvtForCtr.loop ctrIndex fixedEvents fixedEvtCount 0

/-- The function `feEnablemask` of `EventSelect.c`. -/
def feEnablemask (fixedEvent : PMUFixedEvent) : Nat :=
  if fixedEvent._user ≠ 0 ∧ fixedEvent._kernel ≠ 0 then 3
  else if fixedEvent._user ≠ 0 then 2 else 1

/-- The local bit-field record `FixedEvtSelReg` of `buildFixedEvtSelBitmask`. -/
structure FixedEvtSelReg where
  _enable0 : Nat
  _anyThread0 : Nat
  _interruptEn0 : Nat
  _enable1 : Nat
  _anyThread1 : Nat
  _interruptEn1 : Nat
  _enable2 : Nat
  _anyThread2 : Nat
  _interruptEn2 : Nat
  _reservedBits : Nat
deriving DecidableEq, Repr

/-- The 32-bit member `_value` of the union: the bit-fields laid out in declaration order from
bit 0 upwards (widths 2, 1, 1, 2, 1, 1, 2, 1, 1, 20). -/
def FixedEvtSelReg._value (r : FixedEvtSelReg) : Nat :=
  r._enable0 + 2 ^ 2 * r._anyThread0 + 2 ^ 3 * r._interruptEn0
    + 2 ^ 4 * r._enable1 + 2 ^ 6 * r._anyThread1 + 2 ^ 7 * r._interruptEn1
    + 2 ^ 8 * r._enable2 + 2 ^ 10 * r._anyThread2 + 2 ^ 11 * r._interruptEn2
    + 2 ^ 12 * r._reservedBits

/-- The expression `evt ? feEnablemask(evt) : 0`. -/
def enableOf (evt : Option PMUFixedEvent) : Nat :=
  match evt with
  | some e => feEnablemask e
  | none => 0

/-- The function `buildFixedEvtSelBitmask` of `EventSelect.c`. -/
def buildFixedEvtSelBitmask (fixedEvents : Nat → PMUFixedEvent) (fixedEvtCount : Nat) : Nat :=
  let evt0 := findFixedEvtForCtr 0 fixedEvents fixedEvtCount
  let evt1 := findFixedEvtForCtr 1 fixedEvents fixedEvtCount
  let evt2 := findFixedEvtForCtr 2 fixedEvents fixedEvtCount
  let r : FixedEvtSelReg :=
    { _enable0 := bitfield 2 (enableOf evt0)
      _anyThread0 := bitfield 1 0
      _interruptEn0 := bitfield 1 0
      _enable1 := bitfield 2 (enableOf evt1)
      _anyThread1 := bitfield 1 0
      _interruptEn1 := bitfield 1 0
      _enable2 := bitfield 2 (enableOf evt2)
      _anyThread2 := bitfield 1 0
      _interruptEn2 := bitfield 1 0
      _reservedBits := bitfield 20 0 }
  r._value

/-- The loop of `buildFixedEvtGlobalCtlBitmask`: `n` iterations left, at index `i`, with the
accumulated `value`; an index out of range returns 0 at once. -/
def buildFixedEvtGlobalCtlBitmask.loop (fixedEvents : Nat → PMUFixedEvent) :
    Nat → Nat → Nat → Nat
  | 0, _, value => value
  | n + 1, i, value =>
    if (fixedEvents i)._ctrIndex < XPEDITE_PMC_CTRL_FIXED_EVENT_MAX then
      buildFixedEvtGlobalCtlBitmask.loop fixedEvents n (i + 1)
        ((value ||| (1 <<< (fixedEvents i)._ctrIndex)) % 2 ^ 32)
    else 0

/-- The function `buildFixedEvtGlobalCtlBitmask` of `EventSelect.c`. -/
def buildFixedEvtGlobalCtlBitmask (fixedEvents : Nat → PMUFixedEvent)
    (fixedEvtCount : Nat) : Nat :=
  buildFixedEvtGlobalCtlBitmask.loop fixedEvents fixedEvtCount 0 0

/-! ## `buildEventSet` -/

/-- The effect of `memset(eventSelect_, 0, sizeof( *eventSelect_))`: every field is zero,
whatever the record held before. -/
def memsetZero (_eventSelect : EventSelect) : EventSelect :=
  { _fixedEvtGlobalCtl := 0
    _fixedEvtSel := 0
    _gpEvtSel := fun _ => 0
    _offcoreEvtSel := fun _ => 0
    _gpEvtCount := 0
    _offcoreEvtCount := 0 }

/-- The store `a[i] = v` into a C array. -/
def arraySet (a : Nat → Nat) (i v : Nat) : Nat → Nat :=
  fun j => if j = i then v else a j

/-- The first loop of `buildEventSet`, packing the general-purpose events: `n` iterations
left, at index `i`. -/
def buildEventSet.gpLoop (request : PMUCtlRequest) : Nat → Nat → EventSelect → EventSelect
  | 0, _, eventSelect => eventSelect
  | n + 1, i, eventSelect =>
    buildEventSet.gpLoop request n (i + 1)
      { eventSelect with
        _gpEvtSel := arraySet eventSelect._gpEvtSel i
          (buildPerfEvtSelBitmask (request._gpEvents i)) }

/-- The second loop of `buildEventSet`, copying the offcore events: `n` iterations left, at
index `i`. -/
def buildEventSet.offcoreLoop (request : PMUCtlRequest) :
    Nat → Nat → EventSelect → EventSelect
  | 0, _, eventSelect => eventSelect
  | n + 1, i, eventSelect =>
    buildEventSet.offcoreLoop request n (i + 1)
      { eventSelect with
        _offcoreEvtSel := arraySet eventSelect._offcoreEvtSel i (request._offcoreEvents i) }

/-- The function `buildEventSet` of `EventSelect.c`: the status returned and the record left
in the out-parameter `eventSelect`. -/
def buildEventSet (gpMax offcoreMax : Nat) (request : PMUCtlRequest)
    (eventSelect : EventSelect) : Int × EventSelect :=
  let es0 := memsetZero eventSelect
  if request._fixedEvtCount > XPEDITE_PMC_CTRL_FIXED_EVENT_MAX then (-1, es0)
  else if request._gpEvtCount > gpMax then (-1, es0)
  else if request._offcoreEvtCount > offcoreMax then (-1, es0)
  else
    let es1 := buildEventSet.gpLoop request request._gpEvtCount 0 es0
    let es2 := { es1 with _gpEvtCount := request._gpEvtCount }
    let es3 := buildEventSet.offcoreLoop request request._offcoreEvtCount 0 es2
    let es4 := { es3 with _offcoreEvtCount := request._offcoreEvtCount }
    if request._fixedEvtCount ≠ 0 then
      let es5 := { es4 with
        _fixedEvtGlobalCtl :=
          buildFixedEvtGlobalCtlBitmask request._fixedEvents request._fixedEvtCount }
      if es5._fixedEvtGlobalCtl = 0 then (-1, es5)
      else
        (0, { es5 with
          _fixedEvtSel := buildFixedEvtSelBitmask request._fixedEvents request._fixedEvtCount })
    else (0, es4)

/-- The array holding the elements of `l` at its first positions and `d` beyond. -/
def arrayOf {α : Type} (l : List α) (d : α) : Nat → α := fun i => l.getD i d

/-! ## The coordinator `PerfEventsCtl` -/

/-- Modelled from the spec: the type `PerfEventAttrSet` of `xpedite/perf/PerfEventSet.H` (not
at hand): the published event configuration; its content is not interpreted by the
coordinator. -/
abbrev PerfEventAttrSet := List Nat

/-- Modelled from the spec: the class `PerfEventSet` of `xpedite/perf/PerfEventSet.H` (not at
hand): one open set of hardware counters for exactly one target id, remembered together with
the configuration and the generation it was opened from. -/
structure PerfEventSet where
  target : Int
  generation : Nat
  attrs : PerfEventAttrSet
deriving DecidableEq, Repr

/-- Modelled from the spec: the class `framework::SamplesBuffer` (only forward-declared in
`PerfEventsCtl.H`): a handle the coordinator threads through; all that matters here is the
target it belongs to. -/
structure SamplesBuffer where
  tid : Int
deriving DecidableEq, Repr

/-- The type `PerfEventSetMap` (`std::map<pid_t, PerfEventSetPtr>`): a list of bindings with
at most one binding per target id. -/
abbrev PerfEventSetMap := List (Int × PerfEventSet)

/-- The target ids bound in a map. -/
def PerfEventSetMap.keys (m : PerfEventSetMap) : List Int := m.map Prod.fst

/-- The binding of a target id in a map, if any. -/
def PerfEventSetMap.find (m : PerfEventSetMap) (t : Int) : Option PerfEventSet :=
  (m.find? (fun b => b.1 = t)).map Prod.snd

/-- The map with the binding of `t` set to `e`, any previous binding of `t` removed. -/
def PerfEventSetMap.assign (m : PerfEventSetMap) (t : Int) (e : PerfEventSet) :
    PerfEventSetMap :=
  (t, e) :: m.filter (fun b => b.1 ≠ t)

/-- The data members of the class `PerfEventsCtl` (`PerfEventsCtl.H`), the mutex left out: every
operation below is one critical section. -/
structure PerfEventsCtl where
  _activeEventAttrs : PerfEventAttrSet
  _activeEvents : PerfEventSetMap
  _generation : Nat
  _isEnabled : Bool
deriving DecidableEq, Repr

/-- The accessor `PerfEventsCtl::generation` of `PerfEventsCtl.H`. -/
def PerfEventsCtl.generation (c : PerfEventsCtl) : Nat := c._generation

/-- The accessor `PerfEventsCtl::activeEvents` of `PerfEventsCtl.H`. -/
def PerfEventsCtl.activeEvents (c : PerfEventsCtl) : PerfEventSetMap := c._activeEvents

/-- The accessor `PerfEventsCtl::isEnabled` of `PerfEventsCtl.H`. -/
def PerfEventsCtl.isEnabled (c : PerfEventsCtl) : Bool := c._isEnabled

/-- Modelled from the spec: the member `PerfEventsCtl::publishEventAttrs`, declared in
`PerfEventsCtl.H` and defined in a file not at hand: replaces the published configuration and
increments the 64-bit generation. -/
def PerfEventsCtl.publishEventAttrs (c : PerfEventsCtl) (eventAttrs : PerfEventAttrSet) :
    PerfEventsCtl :=
  { c with _activeEventAttrs := eventAttrs, _generation := (c._generation + 1) % 2 ^ 64 }

/-- Modelled from the spec: the member `PerfEventsCtl::snapEventAttrs`, declared in
`PerfEventsCtl.H` and defined in a file not at hand: the generation and the published
configuration, read as one pair. -/
def PerfEventsCtl.snapEventAttrs (c : PerfEventsCtl) : Nat × PerfEventAttrSet :=
  (c._generation, c._activeEventAttrs)

/-- Modelled from the spec: the member `PerfEventsCtl::enable`, declared in `PerfEventsCtl.H`
and defined in a file not at hand: replaces the published configuration, increments the
generation, turns collection on and moves the current map of active event sets out into the
inert set handed back to the caller, so that no target stays attached. Re-enabling
reconfigures, so the call always succeeds. The result is the status, the inert set and the
coordinator afterwards. -/
def PerfEventsCtl.enable (c : PerfEventsCtl) (eventAttrs : PerfEventAttrSet) :
    Bool × PerfEventSetMap × PerfEventsCtl :=
  let c1 := c.publishEventAttrs eventAttrs
  (true, c._activeEvents, { c1 with _isEnabled := true, _activeEvents := [] })

/-- Modelled from the spec: the member `PerfEventsCtl::disable`, declared in `PerfEventsCtl.H`
and defined in a file not at hand: turns collection off and moves the whole map of active
event sets out to the caller, leaving the coordinator's map empty. -/
def PerfEventsCtl.disable (c : PerfEventsCtl) : PerfEventSetMap × PerfEventsCtl :=
  (c._activeEvents, { c with _isEnabled := false, _activeEvents := [] })

/-- Modelled from the spec: the member `PerfEventsCtl::attachUnsafe`, declared in
`PerfEventsCtl.H` and defined in a file not at hand: installs the event set for the target of
the buffer; a previous entry of that target is swapped out and handed back. -/
def PerfEventsCtl.attachUnsafe (c : PerfEventsCtl) (samplesBuffer : SamplesBuffer)
    (perfEventSet : PerfEventSet) : Option PerfEventSet × PerfEventsCtl :=
  (c._activeEvents.find samplesBuffer.tid,
    { c with _activeEvents := c._activeEvents.assign samplesBuffer.tid perfEventSet })

/-- The outcomes of an attach. -/
inductive AttachResult where
  | attached
  | nothingToAttach
  | stale
  | openFailed
deriving DecidableEq, Repr

/-- Modelled from the spec: the second critical section of `PerfEventsCtl::attachTo` (defined
in a file not at hand): with the lock taken again, an event set opened from a generation that
is no longer current is discarded (handed back as inert) and the attach reports staleness;
otherwise the set is installed. -/
def PerfEventsCtl.attachInstall (c : PerfEventsCtl) (samplesBuffer : SamplesBuffer)
    (perfEventSet : PerfEventSet) : AttachResult × Option PerfEventSet × PerfEventsCtl :=
  if c._generation ≠ perfEventSet.generation then (AttachResult.stale, some perfEventSet, c)
  else
    let r := c.attachUnsafe samplesBuffer perfEventSet
    (AttachResult.attached, r.1, r.2)

/-- Modelled from the spec: the event set freshly opened (by kernel calls outside this core)
for the target of a buffer from a snapshot of generation and configuration. -/
def openEventSet (snap : Nat × PerfEventAttrSet) (samplesBuffer : SamplesBuffer) :
    PerfEventSet :=
  { target := samplesBuffer.tid, generation := snap.1, attrs := snap.2 }

/-- Modelled from the spec: the member `PerfEventsCtl::attachTo`, declared in
`PerfEventsCtl.H` and defined in a file not at hand, run without interference: nothing to
attach while collection is off; otherwise the generation and configuration are snapshot, the
event set is opened from the snapshot (`opened` tells whether the kernel calls succeeded) and
then installed. The result is the outcome, the inert event set and the coordinator
afterwards. -/
def PerfEventsCtl.attachTo (c : PerfEventsCtl) (samplesBuffer : SamplesBuffer)
    (opened : Bool) : AttachResult × Option PerfEventSet × PerfEventsCtl :=
  if c._isEnabled = false then (AttachResult.nothingToAttach, none, c)
  else
    let snap := c.snapEventAttrs
    if opened = false then (AttachResult.openFailed, none, c)
    else
      c.attachInstall samplesBuffer (openEventSet snap samplesBuffer)

/-- One call of `attachTo`: the buffer and whether the kernel opened its event set. -/
structure AttachCall where
  samplesBuffer : SamplesBuffer
  opened : Bool
deriving DecidableEq, Repr

/-- The coordinator after a sequence of `attachTo` calls. -/
def PerfEventsCtl.afterAttaches (c : PerfEventsCtl) : List AttachCall → PerfEventsCtl
  | [] => c
  | a :: rest =>
    PerfEventsCtl.afterAttaches (c.attachTo a.samplesBuffer a.opened).2.2 rest

/-- The targets whose `attachTo` call, in a sequence of calls, reported `attached`. -/
def PerfEventsCtl.attachedTargets (c : PerfEventsCtl) : List AttachCall → List Int
  | [] => []
  | a :: rest =>
    let r := c.attachTo a.samplesBuffer a.opened
    if r.1 = AttachResult.attached then
      a.samplesBuffer.tid :: PerfEventsCtl.attachedTargets r.2.2 rest
    else PerfEventsCtl.attachedTargets r.2.2 rest

/-- A general-purpose event whose event select, unit mask and counter mask fit the 8 bits the
request record gives them. -/
def PMUGpEvent.isByteSized (e : PMUGpEvent) : Prop :=
  e._eventSelect < 256 ∧ e._unitMask < 256 ∧ e._counterMask < 256

instance (e : PMUGpEvent) : Decidable e.isByteSized := by
  unfold PMUGpEvent.isByteSized; infer_instance

/-- The general-purpose select register as the spec lays it out, by shifts and ors. -/
def gpSelectLayout (e : PMUGpEvent) : Nat :=
  e._eventSelect ||| e._unitMask <<< 8 ||| neZero e._user <<< 16 ||| neZero e._kernel <<< 17
    ||| neZero e._edgeDetect <<< 18 ||| 0 <<< 19 ||| 0 <<< 20 ||| neZero e._anyThread <<< 21
    ||| 1 <<< 22 ||| neZero e._invertCMask <<< 23 ||| e._counterMask <<< 24

/-- Every field of an `EventSelect` is zero: no register, no offcore value, no count. -/
def EventSelect.allZero (es : EventSelect) : Prop :=
  es._fixedEvtGlobalCtl = 0 ∧ es._fixedEvtSel = 0 ∧ (∀ i, es._gpEvtSel i = 0)
    ∧ (∀ i, es._offcoreEvtSel i = 0) ∧ es._gpEvtCount = 0 ∧ es._offcoreEvtCount = 0

/-- An `EventSelect` with every field zero. -/
def EventSelect.zero : EventSelect :=
  { _fixedEvtGlobalCtl := 0
    _fixedEvtSel := 0
    _gpEvtSel := fun _ => 0
    _offcoreEvtSel := fun _ => 0
    _gpEvtCount := 0
    _offcoreEvtCount := 0 }

/-- A general-purpose event with every field zero. -/
def PMUGpEvent.zero : PMUGpEvent :=
  { _eventSelect := 0, _unitMask := 0, _user := 0, _kernel := 0, _invertCMask := 0,
    _counterMask := 0, _edgeDetect := 0, _anyThread := 0 }

/-- A fixed event with every field zero. -/
def PMUFixedEvent.zero : PMUFixedEvent := { _ctrIndex := 0, _user := 0, _kernel := 0 }

/-- The request made of the given lists of events, the counts being their lengths. -/
def PMUCtlRequest.ofLists (fixed : List PMUFixedEvent) (gp : List PMUGpEvent)
    (offcore : List Nat) : PMUCtlRequest :=
  { _fixedEvtCount := fixed.length
    _gpEvtCount := gp.length
    _offcoreEvtCount := offcore.length
    _fixedEvents := arrayOf fixed PMUFixedEvent.zero
    _gpEvents := arrayOf gp PMUGpEvent.zero
    _offcoreEvents := arrayOf offcore 0 }


/-- The general-purpose event of the worked example: event select `0x2E`, unit mask `0x41`,
counted in user mode only. -/
def gpEventExample : PMUGpEvent :=
  { _eventSelect := 0x2E, _unitMask := 0x41, _user := 1, _kernel := 0, _invertCMask := 0,
    _counterMask := 0, _edgeDetect := 0, _anyThread := 0 }

/-- A valid request: fixed counters 0 and 2, one general-purpose event, one offcore event. -/
def requestExample : PMUCtlRequest :=
  PMUCtlRequest.ofLists
    [{ _ctrIndex := 0, _user := 1, _kernel := 1 }, { _ctrIndex := 2, _user := 1, _kernel := 0 }]
    [gpEventExample] [7]

/-- A request within the maxima whose second fixed event names counter 3, which does not
exist; its first fixed event, its general-purpose event and its offcore event are fine. -/
def requestBadIndex : PMUCtlRequest :=
  PMUCtlRequest.ofLists
    [{ _ctrIndex := 1, _user := 1, _kernel := 1 }, { _ctrIndex := 3, _user := 1, _kernel := 0 }]
    [gpEventExample] [7]

/-- A request with four fixed events, one more than there are fixed counters. -/
def requestTooManyFixed : PMUCtlRequest :=
  PMUCtlRequest.ofLists
    [PMUFixedEvent.zero, PMUFixedEvent.zero, PMUFixedEvent.zero, PMUFixedEvent.zero]
    [gpEventExample] [7]


/-- A coordinator in use: collection on, two targets attached under generation 4. -/
def coordinatorExample : PerfEventsCtl :=
  { _activeEventAttrs := [1]
    _activeEvents := [(10, { target := 10, generation := 4, attrs := [1] }),
      (11, { target := 11, generation := 4, attrs := [1] })]
    _generation := 4
    _isEnabled := true }

/-- Three `attachTo` calls: target 20 opens, target 21 fails to open, target 20 opens
again. -/
def attachCallsExample : List AttachCall :=
  [{ samplesBuffer := { tid := 20 }, opened := true },
    { samplesBuffer := { tid := 21 }, opened := false },
    { samplesBuffer := { tid := 20 }, opened := true }]


/-- The 2-bit enable field of group `i` of a fixed-event select register: bits `4 * i` and
`4 * i + 1`. -/
def fixedEnableField (sel i : Nat) : Nat := sel / 2 ^ (4 * i) % 4

/-- A valid request in which two fixed events name counter 0: the first counts user mode
only, the second user and kernel; a third event sits on counter 1. -/
def requestDuplicateIndex : PMUCtlRequest :=
  PMUCtlRequest.ofLists
    [{ _ctrIndex := 0, _user := 1, _kernel := 0 }, { _ctrIndex := 0, _user := 1, _kernel := 1 },
      { _ctrIndex := 1, _user := 0, _kernel := 1 }]
    [gpEventExample] [7]


/-- The fixed events of `requestDuplicateIndex` with the flags of the second event on counter
0 changed (user and kernel cleared). -/
def fixedEventsDuplicateAlt : Nat → PMUFixedEvent :=
  arrayOf
    [{ _ctrIndex := 0, _user := 1, _kernel := 0 }, { _ctrIndex := 0, _user := 0, _kernel := 0 },
      { _ctrIndex := 1, _user := 0, _kernel := 1 }]
    PMUFixedEvent.zero

/-- The request `requestExample` with other contents in the array entries beyond its counts
(2 fixed events, 1 general-purpose event, 1 offcore event). -/
def requestExamplePadded : PMUCtlRequest :=
  { _fixedEvtCount := 2
    _gpEvtCount := 1
    _offcoreEvtCount := 1
    _fixedEvents := arrayOf
      [{ _ctrIndex := 0, _user := 1, _kernel := 1 }, { _ctrIndex := 2, _user := 1, _kernel := 0 },
        { _ctrIndex := 9, _user := 1, _kernel := 1 }]
      { _ctrIndex := 5, _user := 1, _kernel := 1 }
    _gpEvents := arrayOf [gpEventExample, gpEventExample] gpEventExample
    _offcoreEvents := arrayOf [7, 8, 9] 10 }

/-- An output record left over from an earlier use, with every field non-zero. -/
def eventSelectDirty : EventSelect :=
  { _fixedEvtGlobalCtl := 7
    _fixedEvtSel := 0x333
    _gpEvtSel := fun _ => 0xFFFFFFFF
    _offcoreEvtSel := fun _ => 0xFFFF
    _gpEvtCount := 8
    _offcoreEvtCount := 2 }


/-- The example event with its user flag set to 5 instead of 1: another non-zero value. -/
def gpEventExampleUser5 : PMUGpEvent := { gpEventExample with _user := 5 }

/-- Two fixed events on distinct counters: counter 0 for user and kernel, counter 2 for user
only. -/
def fixedListExample : List PMUFixedEvent :=
  [{ _ctrIndex := 0, _user := 1, _kernel := 1 }, { _ctrIndex := 2, _user := 1, _kernel := 0 }]

/-- The two events of `fixedListExample` in the other order. -/
def fixedListExampleSwapped : List PMUFixedEvent :=
  [{ _ctrIndex := 2, _user := 1, _kernel := 0 }, { _ctrIndex := 0, _user := 1, _kernel := 1 }]


theorem neZero_le_one (x : Nat) : neZero x ≤ 1 := by
  unfold neZero; split <;> omega

theorem neZero_eq_one_iff (x : Nat) : neZero x = 1 ↔ x ≠ 0 := by
  unfold neZero; split <;> simp_all

/-- Placing `x` above an accumulator that fits below bit `k` is an or with a shift. -/
theorem add_field_eq_or (k acc x : Nat) (h : acc < 2 ^ k) :
    acc + 2 ^ k * x = acc ||| x <<< k := by
  rw [Nat.add_comm, Nat.mul_add_lt_is_or h, Nat.or_comm, Nat.shiftLeft_eq, Nat.mul_comm]

/-- The sum of the fields of a general-purpose select register is the or of the fields. -/
theorem gp_fields_sum_eq_or (a b u k ed pc ie an en inv cm : Nat)
    (ha : a < 256) (hb : b < 256) (hu : u ≤ 1) (hk : k ≤ 1) (hed : ed ≤ 1) (hpc : pc ≤ 1)
    (hie : ie ≤ 1) (han : an ≤ 1) (hen : en ≤ 1) (hinv : inv ≤ 1) :
    a + 2 ^ 8 * b + 2 ^ 16 * u + 2 ^ 17 * k + 2 ^ 18 * ed + 2 ^ 19 * pc + 2 ^ 20 * ie
        + 2 ^ 21 * an + 2 ^ 22 * en + 2 ^ 23 * inv + 2 ^ 24 * cm
      = a ||| b <<< 8 ||| u <<< 16 ||| k <<< 17 ||| ed <<< 18 ||| pc <<< 19 ||| ie <<< 20
        ||| an <<< 21 ||| en <<< 22 ||| inv <<< 23 ||| cm <<< 24 := by
  rw [add_field_eq_or 24 _ cm (by omega), add_field_eq_or 23 _ inv (by omega),
    add_field_eq_or 22 _ en (by omega), add_field_eq_or 21 _ an (by omega),
    add_field_eq_or 20 _ ie (by omega), add_field_eq_or 19 _ pc (by omega),
    add_field_eq_or 18 _ ed (by omega), add_field_eq_or 17 _ k (by omega),
    add_field_eq_or 16 _ u (by omega), add_field_eq_or 8 _ b (by omega)]

/-- The register of a general-purpose event, as a sum of its fields at their offsets. -/
theorem buildPerfEvtSelBitmask_eq_sum (e : PMUGpEvent) :
    buildPerfEvtSelBitmask e
      = e._eventSelect % 256 + 2 ^ 8 * (e._unitMask % 256) + 2 ^ 16 * neZero e._user
        + 2 ^ 17 * neZero e._kernel + 2 ^ 18 * neZero e._edgeDetect
        + 2 ^ 21 * neZero e._anyThread + 2 ^ 22 + 2 ^ 23 * neZero e._invertCMask
        + 2 ^ 24 * (e._counterMask % 256) := by
  have h1 : ∀ x, neZero x % 2 = neZero x := fun x =>
    Nat.mod_eq_of_lt (by have := neZero_le_one x; omega)
  simp [buildPerfEvtSelBitmask, PerfEvtSelReg._value, bitfield, h1]

/-- The register of a byte-sized general-purpose event is the layout of the spec. -/
theorem buildPerfEvtSelBitmask_eq_layout (e : PMUGpEvent) (he : e.isByteSized) :
    buildPerfEvtSelBitmask e = gpSelectLayout e := by
  obtain ⟨h1, h2, h3⟩ := he
  have hs := gp_fields_sum_eq_or e._eventSelect e._unitMask (neZero e._user)
    (neZero e._kernel) (neZero e._edgeDetect) 0 0 (neZero e._anyThread) 1
    (neZero e._invertCMask) e._counterMask h1 h2 (neZero_le_one _) (neZero_le_one _)
    (neZero_le_one _) (by omega) (by omega) (neZero_le_one _) (by omega) (neZero_le_one _)
  rw [buildPerfEvtSelBitmask_eq_sum, gpSelectLayout, ← hs, Nat.mod_eq_of_lt h1,
    Nat.mod_eq_of_lt h2, Nat.mod_eq_of_lt h3]
  simp

/-- Bit 22 of every general-purpose register is set, bits 19 and 20 are clear. -/
theorem buildPerfEvtSelBitmask_bits (e : PMUGpEvent) :
    (buildPerfEvtSelBitmask e).testBit 22 = true
      ∧ (buildPerfEvtSelBitmask e).testBit 19 = false
      ∧ (buildPerfEvtSelBitmask e).testBit 20 = false := by
  have hu := neZero_le_one e._user
  have hk := neZero_le_one e._kernel
  have hed := neZero_le_one e._edgeDetect
  have han := neZero_le_one e._anyThread
  have hinv := neZero_le_one e._invertCMask
  have ha := Nat.mod_lt e._eventSelect (by decide : 0 < 256)
  have hb := Nat.mod_lt e._unitMask (by decide : 0 < 256)
  rw [buildPerfEvtSelBitmask_eq_sum]
  simp only [Nat.testBit_to_div_mod, decide_eq_true_eq, decide_eq_false_iff_not]
  refine ⟨?_, ?_, ?_⟩ <;> omega

/-! ## The loops of `buildEventSet` -/

theorem gpLoop_gpEvtSel (request : PMUCtlRequest) (n i : Nat) (es : EventSelect) (j : Nat) :
    (buildEventSet.gpLoop request n i es)._gpEvtSel j
      = if i ≤ j ∧ j < i + n then buildPerfEvtSelBitmask (request._gpEvents j)
        else es._gpEvtSel j := by
  induction n generalizing i es with
  | zero =>
    have : ¬ (i ≤ j ∧ j < i + 0) := by omega
    rw [buildEventSet.gpLoop, if_neg this]
  | succ n ih =>
    rw [buildEventSet.gpLoop, ih]
    by_cases hj : j = i
    · subst hj
      have h1 : ¬ (j + 1 ≤ j ∧ j < j + 1 + n) := by omega
      have h2 : j ≤ j ∧ j < j + (n + 1) := by omega
      simp [h1, h2, arraySet]
    · by_cases h : i ≤ j ∧ j < i + (n + 1)
      · have h1 : i + 1 ≤ j ∧ j < i + 1 + n := by omega
        simp [h, h1]
      · have h1 : ¬ (i + 1 ≤ j ∧ j < i + 1 + n) := by omega
        simp [h, h1, arraySet, hj]

theorem gpLoop_other (request : PMUCtlRequest) (n i : Nat) (es : EventSelect) :
    (buildEventSet.gpLoop request n i es)._fixedEvtGlobalCtl = es._fixedEvtGlobalCtl
      ∧ (buildEventSet.gpLoop request n i es)._fixedEvtSel = es._fixedEvtSel
      ∧ (buildEventSet.gpLoop request n i es)._offcoreEvtSel = es._offcoreEvtSel
      ∧ (buildEventSet.gpLoop request n i es)._gpEvtCount = es._gpEvtCount
      ∧ (buildEventSet.gpLoop request n i es)._offcoreEvtCount = es._offcoreEvtCount := by
  induction n generalizing i es with
  | zero => simp [buildEventSet.gpLoop]
  | succ n ih => rw [buildEventSet.gpLoop]; exact ih _ _

theorem offcoreLoop_offcoreEvtSel (request : PMUCtlRequest) (n i : Nat) (es : EventSelect)
    (j : Nat) :
    (buildEventSet.offcoreLoop request n i es)._offcoreEvtSel j
      = if i ≤ j ∧ j < i + n then request._offcoreEvents j else es._offcoreEvtSel j := by
  induction n generalizing i es with
  | zero =>
    have : ¬ (i ≤ j ∧ j < i + 0) := by omega
    rw [buildEventSet.offcoreLoop, if_neg this]
  | succ n ih =>
    rw [buildEventSet.offcoreLoop, ih]
    by_cases hj : j = i
    · subst hj
      have h1 : ¬ (j + 1 ≤ j ∧ j < j + 1 + n) := by omega
      have h2 : j ≤ j ∧ j < j + (n + 1) := by omega
      simp [h1, h2, arraySet]
    · by_cases h : i ≤ j ∧ j < i + (n + 1)
      · have h1 : i + 1 ≤ j ∧ j < i + 1 + n := by omega
        simp [h, h1]
      · have h1 : ¬ (i + 1 ≤ j ∧ j < i + 1 + n) := by omega
        simp [h, h1, arraySet, hj]

theorem offcoreLoop_other (request : PMUCtlRequest) (n i : Nat) (es : EventSelect) :
    (buildEventSet.offcoreLoop request n i es)._fixedEvtGlobalCtl = es._fixedEvtGlobalCtl
      ∧ (buildEventSet.offcoreLoop request n i es)._fixedEvtSel = es._fixedEvtSel
      ∧ (buildEventSet.offcoreLoop request n i es)._gpEvtSel = es._gpEvtSel
      ∧ (buildEventSet.offcoreLoop request n i es)._gpEvtCount = es._gpEvtCount
      ∧ (buildEventSet.offcoreLoop request n i es)._offcoreEvtCount = es._offcoreEvtCount := by
  induction n generalizing i es with
  | zero => simp [buildEventSet.offcoreLoop]
  | succ n ih => rw [buildEventSet.offcoreLoop]; exact ih _ _

/-! ## The global-control loop -/

theorem one_shiftLeft_lt_eight (k : Nat) (h : k < 3) : 1 <<< k < 2 ^ 3 := by
  interval_cases k <;> decide

/-- An index out of range anywhere in the remaining entries makes the loop return 0. -/
theorem globalCtl_loop_invalid (fixedEvents : Nat → PMUFixedEvent) (n i value : Nat)
    (h : ∃ j, i ≤ j ∧ j < i + n ∧ 3 ≤ (fixedEvents j)._ctrIndex) :
    buildFixedEvtGlobalCtlBitmask.loop fixedEvents n i value = 0 := by
  induction n generalizing i value with
  | zero => obtain ⟨j, h1, h2, _⟩ := h; omega
  | succ n ih =>
    rw [buildFixedEvtGlobalCtlBitmask.loop]
    split
    · rename_i hlt
      apply ih
      obtain ⟨j, h1, h2, h3⟩ := h
      refine ⟨j, ?_, by omega, h3⟩
      by_contra hc
      have : j = i := by omega
      subst this
      simp only [XPEDITE_PMC_CTRL_FIXED_EVENT_MAX] at hlt
      omega
    · rfl

/-- With every remaining index in range the loop ors one bit per entry into the value. -/
theorem globalCtl_loop_valid (fixedEvents : Nat → PMUFixedEvent) (n i value : Nat)
    (hv : value < 2 ^ 3)
    (h : ∀ j, i ≤ j → j < i + n → (fixedEvents j)._ctrIndex < 3) :
    buildFixedEvtGlobalCtlBitmask.loop fixedEvents n i value < 2 ^ 3
      ∧ ∀ b, (buildFixedEvtGlobalCtlBitmask.loop fixedEvents n i value).testBit b = true
          ↔ (value.testBit b = true
              ∨ ∃ j, i ≤ j ∧ j < i + n ∧ (fixedEvents j)._ctrIndex = b) := by
  induction n generalizing i value with
  | zero =>
    refine ⟨by simpa [buildFixedEvtGlobalCtlBitmask.loop] using hv, fun b => ?_⟩
    simp only [buildFixedEvtGlobalCtlBitmask.loop]
    constructor
    · intro hb; exact Or.inl hb
    · rintro (hb | ⟨j, h1, h2, _⟩)
      · exact hb
      · omega
  | succ n ih =>
    have hi : (fixedEvents i)._ctrIndex < 3 := h i (Nat.le_refl _) (by omega)
    have hor : value ||| 1 <<< (fixedEvents i)._ctrIndex < 2 ^ 3 :=
      Nat.or_lt_two_pow hv (one_shiftLeft_lt_eight _ hi)
    have hmod : (value ||| 1 <<< (fixedEvents i)._ctrIndex) % 2 ^ 32
        = value ||| 1 <<< (fixedEvents i)._ctrIndex :=
      Nat.mod_eq_of_lt (Nat.lt_of_lt_of_le hor (by decide))
    rw [buildFixedEvtGlobalCtlBitmask.loop, if_pos (by simpa [XPEDITE_PMC_CTRL_FIXED_EVENT_MAX] using hi),
      hmod]
    obtain ⟨hlt, hbits⟩ := ih (i + 1) _ hor (fun j h1 h2 => h j (by omega) (by omega))
    refine ⟨hlt, fun b => ?_⟩
    rw [hbits b, Nat.testBit_or, Nat.testBit_shiftLeft]
    have hone : ∀ k, Nat.testBit 1 k = true ↔ k = 0 := by
      intro k
      cases k with
      | zero => simp
      | succ k => simp [Nat.testBit_succ]
    simp only [Bool.or_eq_true, Bool.and_eq_true, decide_eq_true_eq, ge_iff_le, hone]
    constructor
    · rintro ((hb | ⟨h1, h2⟩) | ⟨j, h1, h2, h3⟩)
      · exact Or.inl hb
      · exact Or.inr ⟨i, Nat.le_refl _, by omega, by omega⟩
      · exact Or.inr ⟨j, by omega, by omega, h3⟩
    · rintro (hb | ⟨j, h1, h2, h3⟩)
      · exact Or.inl (Or.inl hb)
      · by_cases hj : j = i
        · subst hj
          exact Or.inl (Or.inr ⟨by omega, by omega⟩)
        · exact Or.inr ⟨j, by omega, by omega, h3⟩

/-! ## `buildEventSet`, case by case -/

/-- A count over its maximum: the build fails with the record as `memset` left it. -/
theorem buildEventSet_of_count_over (gpMax offcoreMax : Nat) (request : PMUCtlRequest)
    (eventSelect : EventSelect)
    (h : request._fixedEvtCount > 3 ∨ request._gpEvtCount > gpMax
      ∨ request._offcoreEvtCount > offcoreMax) :
    buildEventSet gpMax offcoreMax request eventSelect = (-1, memsetZero eventSelect) := by
  unfold buildEventSet
  simp only [XPEDITE_PMC_CTRL_FIXED_EVENT_MAX]
  by_cases h1 : request._fixedEvtCount > 3
  · simp [h1]
  · by_cases h2 : request._gpEvtCount > gpMax
    · simp [h1, h2]
    · have h3 : request._offcoreEvtCount > offcoreMax := by omega
      simp [h1, h2, h3]

/-- Counts within their maxima: the status and every field of the record left by the build. -/
theorem buildEventSet_of_counts_within (gpMax offcoreMax : Nat) (request : PMUCtlRequest)
    (eventSelect : EventSelect) (hf : request._fixedEvtCount ≤ 3)
    (hg : request._gpEvtCount ≤ gpMax) (ho : request._offcoreEvtCount ≤ offcoreMax) :
    (buildEventSet gpMax offcoreMax request eventSelect).2._gpEvtCount = request._gpEvtCount
      ∧ (buildEventSet gpMax offcoreMax request eventSelect).2._offcoreEvtCount
          = request._offcoreEvtCount
      ∧ (∀ j, (buildEventSet gpMax offcoreMax request eventSelect).2._gpEvtSel j
          = if j < request._gpEvtCount then buildPerfEvtSelBitmask (request._gpEvents j)
            else 0)
      ∧ (∀ j, (buildEventSet gpMax offcoreMax request eventSelect).2._offcoreEvtSel j
          = if j < request._offcoreEvtCount then request._offcoreEvents j else 0)
      ∧ (buildEventSet gpMax offcoreMax request eventSelect).2._fixedEvtGlobalCtl
          = (if request._fixedEvtCount ≠ 0 then
              buildFixedEvtGlobalCtlBitmask request._fixedEvents request._fixedEvtCount
            else 0)
      ∧ (buildEventSet gpMax offcoreMax request eventSelect).2._fixedEvtSel
          = (if request._fixedEvtCount ≠ 0
                ∧ buildFixedEvtGlobalCtlBitmask request._fixedEvents request._fixedEvtCount
                  ≠ 0 then
              buildFixedEvtSelBitmask request._fixedEvents request._fixedEvtCount
            else 0)
      ∧ (buildEventSet gpMax offcoreMax request eventSelect).1
          = (if request._fixedEvtCount ≠ 0
                ∧ buildFixedEvtGlobalCtlBitmask request._fixedEvents request._fixedEvtCount
                  = 0 then -1
            else 0) := by
  have h1 : ¬ request._fixedEvtCount > 3 := by omega
  have h2 : ¬ request._gpEvtCount > gpMax := by omega
  have h3 : ¬ request._offcoreEvtCount > offcoreMax := by omega
  have hgp : ∀ (es : EventSelect) (j : Nat), (∀ k, es._gpEvtSel k = 0) →
      (buildEventSet.gpLoop request request._gpEvtCount 0 es)._gpEvtSel j
        = if j < request._gpEvtCount then buildPerfEvtSelBitmask (request._gpEvents j)
          else 0 := by
    intro es j hz
    rw [gpLoop_gpEvtSel, hz]
    simp
  have hoc : ∀ (es : EventSelect) (j : Nat), (∀ k, es._offcoreEvtSel k = 0) →
      (buildEventSet.offcoreLoop request request._offcoreEvtCount 0 es)._offcoreEvtSel j
        = if j < request._offcoreEvtCount then request._offcoreEvents j else 0 := by
    intro es j hz
    rw [offcoreLoop_offcoreEvtSel, hz]
    simp
  unfold buildEventSet
  simp only [XPEDITE_PMC_CTRL_FIXED_EVENT_MAX, h1, h2, h3, if_false]
  by_cases hc : request._fixedEvtCount = 0
  · simp [hc, offcoreLoop_other, gpLoop_other, memsetZero, hgp, hoc]
  · by_cases hG :
      buildFixedEvtGlobalCtlBitmask request._fixedEvents request._fixedEvtCount = 0
    · simp [hc, hG, offcoreLoop_other, gpLoop_other, memsetZero, hgp, hoc]
    · simp [hc, hG, offcoreLoop_other, gpLoop_other, memsetZero, hgp, hoc]

/-! ## The global-control register -/

theorem globalCtl_of_invalid (fixedEvents : Nat → PMUFixedEvent) (n : Nat)
    (h : ∃ j, j < n ∧ 3 ≤ (fixedEvents j)._ctrIndex) :
    buildFixedEvtGlobalCtlBitmask fixedEvents n = 0 := by
  obtain ⟨j, h1, h2⟩ := h
  exact globalCtl_loop_invalid fixedEvents n 0 0 ⟨j, Nat.zero_le _, by omega, h2⟩

theorem globalCtl_of_valid (fixedEvents : Nat → PMUFixedEvent) (n : Nat)
    (h : ∀ j, j < n → (fixedEvents j)._ctrIndex < 3) :
    buildFixedEvtGlobalCtlBitmask fixedEvents n < 2 ^ 3
      ∧ ∀ b, (buildFixedEvtGlobalCtlBitmask fixedEvents n).testBit b = true
          ↔ ∃ j, j < n ∧ (fixedEvents j)._ctrIndex = b := by
  obtain ⟨hlt, hbits⟩ := globalCtl_loop_valid fixedEvents n 0 0 (by decide)
    (fun j _ h2 => h j (by omega))
  refine ⟨hlt, fun b => ?_⟩
  rw [buildFixedEvtGlobalCtlBitmask, hbits b]
  constructor
  · rintro (hb | ⟨j, _, h2, h3⟩)
    · simp at hb
    · exact ⟨j, by omega, h3⟩
  · rintro ⟨j, h1, h2⟩
    exact Or.inr ⟨j, Nat.zero_le _, by omega, h2⟩

theorem globalCtl_ne_zero_of_valid (fixedEvents : Nat → PMUFixedEvent) (n : Nat)
    (hn : n ≠ 0) (h : ∀ j, j < n → (fixedEvents j)._ctrIndex < 3) :
    buildFixedEvtGlobalCtlBitmask fixedEvents n ≠ 0 := by
  intro hz
  have hb := ((globalCtl_of_valid fixedEvents n h).2 (fixedEvents 0)._ctrIndex).2
    ⟨0, by omega, rfl⟩
  rw [hz] at hb
  simp at hb

/-- A non-zero global-control value means every fixed event had its index in range. -/
theorem valid_of_globalCtl_ne_zero (fixedEvents : Nat → PMUFixedEvent) (n : Nat)
    (h : buildFixedEvtGlobalCtlBitmask fixedEvents n ≠ 0) :
    ∀ j, j < n → (fixedEvents j)._ctrIndex < 3 := by
  intro j hj
  by_contra hc
  exact h (globalCtl_of_invalid fixedEvents n ⟨j, hj, by omega⟩)

/-- The status of `buildEventSet` is 0 or -1. -/
theorem buildEventSet_status (gpMax offcoreMax : Nat) (request : PMUCtlRequest)
    (eventSelect : EventSelect) :
    (buildEventSet gpMax offcoreMax request eventSelect).1 = 0
      ∨ (buildEventSet gpMax offcoreMax request eventSelect).1 = -1 := by
  by_cases h : request._fixedEvtCount > 3 ∨ request._gpEvtCount > gpMax
      ∨ request._offcoreEvtCount > offcoreMax
  · rw [buildEventSet_of_count_over _ _ _ _ h]; exact Or.inr rfl
  · have hs := (buildEventSet_of_counts_within gpMax offcoreMax request eventSelect
      (by omega) (by omega) (by omega)).2.2.2.2.2.2
    rw [hs]
    split
    · exact Or.inr rfl
    · exact Or.inl rfl

/-- A successful build had its counts within the maxima and, if it had fixed events, a
non-zero global-control value. -/
theorem counts_within_of_success (gpMax offcoreMax : Nat) (request : PMUCtlRequest)
    (eventSelect : EventSelect)
    (hok : (buildEventSet gpMax offcoreMax request eventSelect).1 = 0) :
    request._fixedEvtCount ≤ 3 ∧ request._gpEvtCount ≤ gpMax
      ∧ request._offcoreEvtCount ≤ offcoreMax
      ∧ (request._fixedEvtCount ≠ 0 →
          buildFixedEvtGlobalCtlBitmask request._fixedEvents request._fixedEvtCount ≠ 0) := by
  by_cases h : request._fixedEvtCount > 3 ∨ request._gpEvtCount > gpMax
      ∨ request._offcoreEvtCount > offcoreMax
  · rw [buildEventSet_of_count_over _ _ _ _ h] at hok
    simp at hok
  · refine ⟨by omega, by omega, by omega, fun hn hG => ?_⟩
    have hs := (buildEventSet_of_counts_within gpMax offcoreMax request eventSelect
      (by omega) (by omega) (by omega)).2.2.2.2.2.2
    rw [hs, if_pos ⟨hn, hG⟩] at hok
    simp at hok

/-! ## The builder: claims C1 to C9 -/

/-- C1: a request whose fixed-event count is at most 3, whose general-purpose and offcore
counts are within their maxima and whose fixed events all have a counter index below 3 is
built with status 0; the counts of the output are the counts of the request; and when the
request has fixed events the global-control value is not the zero used as error sentinel. -/
theorem buildEventSet_succeeds_of_valid (gpMax offcoreMax : Nat) (request : PMUCtlRequest)
    (eventSelect : EventSelect) (hf : request._fixedEvtCount ≤ 3)
    (hg : request._gpEvtCount ≤ gpMax) (ho : request._offcoreEvtCount ≤ offcoreMax)
    (hidx : ∀ j, j < request._fixedEvtCount → (request._fixedEvents j)._ctrIndex < 3) :
    (buildEventSet gpMax offcoreMax request eventSelect).1 = 0
      ∧ (buildEventSet gpMax offcoreMax request eventSelect).2._gpEvtCount
          = request._gpEvtCount
      ∧ (buildEventSet gpMax offcoreMax request eventSelect).2._offcoreEvtCount
          = request._offcoreEvtCount
      ∧ (request._fixedEvtCount ≠ 0 →
          buildFixedEvtGlobalCtlBitmask request._fixedEvents request._fixedEvtCount ≠ 0) := by
  obtain ⟨h1, h2, _, _, _, _, h7⟩ :=
    buildEventSet_of_counts_within gpMax offcoreMax request eventSelect hf hg ho
  have hne : request._fixedEvtCount ≠ 0 →
      buildFixedEvtGlobalCtlBitmask request._fixedEvents request._fixedEvtCount ≠ 0 :=
    fun hn => globalCtl_ne_zero_of_valid _ _ hn hidx
  refine ⟨?_, h1, h2, hne⟩
  rw [h7, if_neg]
  rintro ⟨hn, hG⟩
  exact hne hn hG

/-- C1 at the example request, with 8 general-purpose and 2 offcore registers. -/
theorem buildEventSet_succeeds_of_valid_witness :
    (buildEventSet 8 2 requestExample EventSelect.zero).1 = 0
      ∧ (buildEventSet 8 2 requestExample EventSelect.zero).2._gpEvtCount = 1
      ∧ (buildEventSet 8 2 requestExample EventSelect.zero).2._offcoreEvtCount = 1
      ∧ (requestExample._fixedEvtCount ≠ 0 →
          buildFixedEvtGlobalCtlBitmask requestExample._fixedEvents
            requestExample._fixedEvtCount ≠ 0) :=
  buildEventSet_succeeds_of_valid 8 2 requestExample EventSelect.zero (by decide) (by decide)
    (by decide) (by decide)

/-- C2: the register of a general-purpose event whose 8-bit fields are in range is
`eventSelect | unitMask<<8 | user<<16 | kernel<<17 | edgeDetect<<18 | 0<<19 | 0<<20 |
anyThread<<21 | 1<<22 | invertCounterMask<<23 | counterMask<<24`, a flag contributing 1 iff
it is non-zero; bit 22 is set and bits 19 and 20 are clear; and a successful build stores, at
every position below the general-purpose count, the register of the event at that position. -/
theorem gpEvtSel_layout :
    (∀ e : PMUGpEvent, e.isByteSized →
      buildPerfEvtSelBitmask e = gpSelectLayout e
        ∧ (buildPerfEvtSelBitmask e).testBit 22 = true
        ∧ (buildPerfEvtSelBitmask e).testBit 19 = false
        ∧ (buildPerfEvtSelBitmask e).testBit 20 = false)
      ∧ (∀ x : Nat, (neZero x = 1 ↔ x ≠ 0) ∧ (neZero x = 0 ↔ x = 0))
      ∧ (∀ (gpMax offcoreMax : Nat) (request : PMUCtlRequest) (eventSelect : EventSelect),
          (buildEventSet gpMax offcoreMax request eventSelect).1 = 0 →
          ∀ i, i < request._gpEvtCount →
            (buildEventSet gpMax offcoreMax request eventSelect).2._gpEvtSel i
              = buildPerfEvtSelBitmask (request._gpEvents i)) := by
  refine ⟨fun e he => ⟨buildPerfEvtSelBitmask_eq_layout e he, buildPerfEvtSelBitmask_bits e⟩,
    fun x => ⟨neZero_eq_one_iff x, ?_⟩, ?_⟩
  · unfold neZero; split <;> simp_all
  · intro gpMax offcoreMax request eventSelect hok i hi
    obtain ⟨hf, hg, ho, _⟩ := counts_within_of_success _ _ _ _ hok
    rw [(buildEventSet_of_counts_within gpMax offcoreMax request eventSelect hf hg ho).2.2.1 i,
      if_pos hi]

/-- C2 at the example event and the example request. -/
theorem gpEvtSel_layout_witness :
    (buildPerfEvtSelBitmask gpEventExample = gpSelectLayout gpEventExample
        ∧ (buildPerfEvtSelBitmask gpEventExample).testBit 22 = true
        ∧ (buildPerfEvtSelBitmask gpEventExample).testBit 19 = false
        ∧ (buildPerfEvtSelBitmask gpEventExample).testBit 20 = false)
      ∧ (buildEventSet 8 2 requestExample EventSelect.zero).2._gpEvtSel 0
          = buildPerfEvtSelBitmask (requestExample._gpEvents 0) :=
  ⟨gpEvtSel_layout.1 gpEventExample (by decide),
    gpEvtSel_layout.2.2 8 2 requestExample EventSelect.zero (by decide) 0 (by decide)⟩

/-! ### The fixed-event select register -/

theorem findLoop_none (ctrIndex : Nat) (fixedEvents : Nat → PMUFixedEvent) (n i : Nat)
    (h : ∀ j, i ≤ j → j < i + n → (fixedEvents j)._ctrIndex ≠ ctrIndex) :
    findFixedEvtForCtr.loop ctrIndex fixedEvents n i = none := by
  induction n generalizing i with
  | zero => rfl
  | succ n ih =>
    rw [findFixedEvtForCtr.loop, if_neg (h i (Nat.le_refl _) (by omega))]
    exact ih (i + 1) (fun j h1 h2 => h j (by omega) (by omega))

theorem findLoop_first (ctrIndex : Nat) (fixedEvents : Nat → PMUFixedEvent) (n i j : Nat)
    (h1 : i ≤ j) (h2 : j < i + n) (hm : (fixedEvents j)._ctrIndex = ctrIndex)
    (hfirst : ∀ k, i ≤ k → k < j → (fixedEvents k)._ctrIndex ≠ ctrIndex) :
    findFixedEvtForCtr.loop ctrIndex fixedEvents n i = some (fixedEvents j) := by
  induction n generalizing i with
  | zero => omega
  | succ n ih =>
    rw [findFixedEvtForCtr.loop]
    by_cases hij : j = i
    · subst hij
      rw [if_pos hm]
    · rw [if_neg (hfirst i (Nat.le_refl _) (by omega))]
      exact ih (i + 1) (by omega) (by omega) (fun k hk1 hk2 => hfirst k (by omega) hk2)

theorem feEnablemask_le (e : PMUFixedEvent) : feEnablemask e ≤ 3 := by
  unfold feEnablemask; split
  · omega
  · split <;> omega

theorem enableOf_le (evt : Option PMUFixedEvent) : enableOf evt ≤ 3 := by
  cases evt with
  | none => simp [enableOf]
  | some e => exact feEnablemask_le e

/-- The fixed-event select register, as a sum of its three enable fields at their offsets. -/
theorem buildFixedEvtSelBitmask_eq_sum (fixedEvents : Nat → PMUFixedEvent) (n : Nat) :
    buildFixedEvtSelBitmask fixedEvents n
      = enableOf (findFixedEvtForCtr 0 fixedEvents n)
        + 2 ^ 4 * enableOf (findFixedEvtForCtr 1 fixedEvents n)
        + 2 ^ 8 * enableOf (findFixedEvtForCtr 2 fixedEvents n) := by
  have h : ∀ evt, enableOf evt % 4 = enableOf evt := fun evt =>
    Nat.mod_eq_of_lt (by have := enableOf_le evt; omega)
  simp [buildFixedEvtSelBitmask, FixedEvtSelReg._value, bitfield, h]

/-- C3: the fixed-event select register is `m0 | m1<<4 | m2<<8`, where the enable mask `m_i`
of counter `i` is 0 when no fixed event of the list has counter index `i`, and otherwise is
decided by the first event with that index: 3 with user and kernel set, 2 with user set but
not kernel, 1 otherwise. Bits 2, 3, 6, 7, 10, 11 and all bits from 12 up are zero, and the
value never exceeds `0x333`. -/
theorem fixedEvtSel_layout (fixedEvents : Nat → PMUFixedEvent) (fixedEvtCount : Nat) :
    buildFixedEvtSelBitmask fixedEvents fixedEvtCount
        = enableOf (findFixedEvtForCtr 0 fixedEvents fixedEvtCount)
          ||| enableOf (findFixedEvtForCtr 1 fixedEvents fixedEvtCount) <<< 4
          ||| enableOf (findFixedEvtForCtr 2 fixedEvents fixedEvtCount) <<< 8
      ∧ (∀ i, i < 3 →
          ((∀ j, j < fixedEvtCount → (fixedEvents j)._ctrIndex ≠ i) →
              enableOf (findFixedEvtForCtr i fixedEvents fixedEvtCount) = 0)
          ∧ (∀ j, j < fixedEvtCount → (fixedEvents j)._ctrIndex = i →
              (∀ k, k < j → (fixedEvents k)._ctrIndex ≠ i) →
              ((fixedEvents j)._user ≠ 0 ∧ (fixedEvents j)._kernel ≠ 0 →
                  enableOf (findFixedEvtForCtr i fixedEvents fixedEvtCount) = 3)
              ∧ ((fixedEvents j)._user ≠ 0 ∧ (fixedEvents j)._kernel = 0 →
                  enableOf (findFixedEvtForCtr i fixedEvents fixedEvtCount) = 2)
              ∧ ((fixedEvents j)._user = 0 →
                  enableOf (findFixedEvtForCtr i fixedEvents fixedEvtCount) = 1)))
      ∧ buildFixedEvtSelBitmask fixedEvents fixedEvtCount ≤ 0x333
      ∧ (∀ b, b ∈ [2, 3, 6, 7, 10, 11] →
          (buildFixedEvtSelBitmask fixedEvents fixedEvtCount).testBit b = false)
      ∧ (∀ b, 12 ≤ b →
          (buildFixedEvtSelBitmask fixedEvents fixedEvtCount).testBit b = false) := by
  have h0 := enableOf_le (findFixedEvtForCtr 0 fixedEvents fixedEvtCount)
  have h1 := enableOf_le (findFixedEvtForCtr 1 fixedEvents fixedEvtCount)
  have h2 := enableOf_le (findFixedEvtForCtr 2 fixedEvents fixedEvtCount)
  have hsum := buildFixedEvtSelBitmask_eq_sum fixedEvents fixedEvtCount
  refine ⟨?_, ?_, by omega, ?_, ?_⟩
  · rw [hsum, add_field_eq_or 8 _ _ (by omega), add_field_eq_or 4 _ _ (by omega)]
  · intro i _
    refine ⟨fun hnone => ?_, fun j hj hm hfirst => ?_⟩
    · rw [findFixedEvtForCtr,
        findLoop_none i fixedEvents fixedEvtCount 0 (fun j _ hlt => hnone j (by omega))]
      rfl
    · rw [findFixedEvtForCtr,
        findLoop_first i fixedEvents fixedEvtCount 0 j (Nat.zero_le _) (by omega) hm
          (fun k _ hk => hfirst k hk)]
      simp only [enableOf, feEnablemask]
      refine ⟨fun h => by rw [if_pos h], fun h => ?_, fun h => ?_⟩
      · rw [if_neg (by simp [h.2]), if_pos h.1]
      · rw [if_neg (by simp [h]), if_neg (by simp [h])]
  · intro b hb
    simp only [List.mem_cons, List.mem_singleton, List.not_mem_nil, or_false] at hb
    rw [hsum, Nat.testBit_to_div_mod, decide_eq_false_iff_not]
    rcases hb with rfl | rfl | rfl | rfl | rfl | rfl <;> omega
  · intro b hb
    apply Nat.testBit_lt_two_pow
    calc buildFixedEvtSelBitmask fixedEvents fixedEvtCount < 2 ^ 12 := by omega
      _ ≤ 2 ^ b := Nat.pow_le_pow_right (by decide) hb

/-- C3 at the fixed events of the example request: counter 0 gets mask 3 (user and kernel),
counter 1 gets 0 (no event), counter 2 gets 2 (user only). -/
theorem fixedEvtSel_layout_witness :
    enableOf (findFixedEvtForCtr 1 requestExample._fixedEvents 2) = 0
      ∧ enableOf (findFixedEvtForCtr 0 requestExample._fixedEvents 2) = 3
      ∧ enableOf (findFixedEvtForCtr 2 requestExample._fixedEvents 2) = 2
      ∧ buildFixedEvtSelBitmask requestExample._fixedEvents 2 = 0x203 :=
  ⟨((fixedEvtSel_layout requestExample._fixedEvents 2).2.1 1 (by decide)).1 (by decide),
    (((fixedEvtSel_layout requestExample._fixedEvents 2).2.1 0 (by decide)).2 0 (by decide)
      (by decide) (by decide)).1 (by decide),
    (((fixedEvtSel_layout requestExample._fixedEvents 2).2.1 2 (by decide)).2 1 (by decide)
      (by decide) (by decide)).2.1 (by decide),
    by decide⟩

/-! ### The global-control register of a build -/

/-- C4: after a successful build, bit `i` of the fixed-event global-control register is set
if and only if one of the first `fixedEvtCount` fixed events of the request has counter
index `i` (for every `i`, so no other bit is set); in particular, with events on counters 0
and 2 and none on counter 1 the register is `0b101 = 5`. -/
theorem fixedEvtGlobalCtl_bits (gpMax offcoreMax : Nat) (request : PMUCtlRequest)
    (eventSelect : EventSelect)
    (hok : (buildEventSet gpMax offcoreMax request eventSelect).1 = 0) :
    (∀ i, (buildEventSet gpMax offcoreMax request eventSelect).2._fixedEvtGlobalCtl.testBit i
          = true
        ↔ ∃ j, j < request._fixedEvtCount ∧ (request._fixedEvents j)._ctrIndex = i)
      ∧ ((∃ j, j < request._fixedEvtCount ∧ (request._fixedEvents j)._ctrIndex = 0) →
          (∃ j, j < request._fixedEvtCount ∧ (request._fixedEvents j)._ctrIndex = 2) →
          (∀ j, j < request._fixedEvtCount → (request._fixedEvents j)._ctrIndex ≠ 1) →
          (buildEventSet gpMax offcoreMax request eventSelect).2._fixedEvtGlobalCtl = 5) := by
  obtain ⟨hf, hg, ho, hG⟩ := counts_within_of_success _ _ _ _ hok
  have hfield :=
    (buildEventSet_of_counts_within gpMax offcoreMax request eventSelect hf hg ho).2.2.2.2.1
  have hbits : ∀ i,
      (buildEventSet gpMax offcoreMax request eventSelect).2._fixedEvtGlobalCtl.testBit i = true
        ↔ ∃ j, j < request._fixedEvtCount ∧ (request._fixedEvents j)._ctrIndex = i := by
    intro i
    rw [hfield]
    by_cases hn : request._fixedEvtCount = 0
    · rw [if_neg (by simp [hn])]
      constructor
      · intro h; simp at h
      · rintro ⟨j, hj, _⟩; omega
    · rw [if_pos hn]
      exact (globalCtl_of_valid _ _ (valid_of_globalCtl_ne_zero _ _ (hG hn))).2 i
  have hlt : (buildEventSet gpMax offcoreMax request eventSelect).2._fixedEvtGlobalCtl
      < 2 ^ 3 := by
    rw [hfield]
    by_cases hn : request._fixedEvtCount = 0
    · rw [if_neg (by simp [hn])]; decide
    · rw [if_pos hn]
      exact (globalCtl_of_valid _ _ (valid_of_globalCtl_ne_zero _ _ (hG hn))).1
  refine ⟨hbits, fun h0 h2 h1 => ?_⟩
  have b0 := (hbits 0).2 h0
  have b2 := (hbits 2).2 h2
  have b1 : ¬ (buildEventSet gpMax offcoreMax request eventSelect).2._fixedEvtGlobalCtl.testBit 1
      = true := fun h => by
    obtain ⟨j, hj, hm⟩ := (hbits 1).1 h
    exact h1 j hj hm
  rw [Nat.testBit_to_div_mod, decide_eq_true_eq] at b0 b2 b1
  omega

/-- C4 at the example request, whose fixed events sit on counters 0 and 2: the register
is 5. -/
theorem fixedEvtGlobalCtl_bits_witness :
    (buildEventSet 8 2 requestExample EventSelect.zero).1 = 0
      ∧ (buildEventSet 8 2 requestExample EventSelect.zero).2._fixedEvtGlobalCtl = 5 :=
  ⟨by decide,
    (fixedEvtGlobalCtl_bits 8 2 requestExample EventSelect.zero (by decide)).2
      ⟨0, by decide, by decide⟩ ⟨1, by decide, by decide⟩ (by decide)⟩

/-! ### Failed builds -/

/-- C5, as stated, fails: the request `requestBadIndex` is within the maxima and has a fixed
event on the non-existent counter 3; the build fails, yet the output holds the packed register
of the general-purpose event, the offcore value and both counts. -/
theorem failed_build_keeps_registers :
    (buildEventSet 8 2 requestBadIndex EventSelect.zero).1 = -1
      ∧ (buildEventSet 8 2 requestBadIndex EventSelect.zero).2._gpEvtSel 0 = 0x41412E
      ∧ (buildEventSet 8 2 requestBadIndex EventSelect.zero).2._offcoreEvtSel 0 = 7
      ∧ (buildEventSet 8 2 requestBadIndex EventSelect.zero).2._gpEvtCount = 1
      ∧ (buildEventSet 8 2 requestBadIndex EventSelect.zero).2._offcoreEvtCount = 1
      ∧ ¬ (buildEventSet 8 2 requestBadIndex EventSelect.zero).2.allZero := by
  refine ⟨by decide, by decide, by decide, by decide, by decide, fun h => ?_⟩
  have h5 := h.2.2.2.2.1
  revert h5
  decide

/-- C5, amended: on every failed build both fixed-event registers of the output are zero.
When the cause is a count over its maximum, the failure is detected before any register is
packed and every field of the output is zero. Otherwise the counts are within the maxima and
the cause is a fixed event with counter index 3 or more: by then the general-purpose
registers, the offcore values and the two counts have been stored as on a successful
build. -/
theorem failed_build_output (gpMax offcoreMax : Nat) (request : PMUCtlRequest)
    (eventSelect : EventSelect)
    (hfail : (buildEventSet gpMax offcoreMax request eventSelect).1 = -1) :
    (buildEventSet gpMax offcoreMax request eventSelect).2._fixedEvtGlobalCtl = 0
      ∧ (buildEventSet gpMax offcoreMax request eventSelect).2._fixedEvtSel = 0
      ∧ ((request._fixedEvtCount > 3 ∨ request._gpEvtCount > gpMax
            ∨ request._offcoreEvtCount > offcoreMax) →
          (buildEventSet gpMax offcoreMax request eventSelect).2.allZero)
      ∧ (¬ (request._fixedEvtCount > 3 ∨ request._gpEvtCount > gpMax
            ∨ request._offcoreEvtCount > offcoreMax) →
          (∃ j, j < request._fixedEvtCount ∧ 3 ≤ (request._fixedEvents j)._ctrIndex)
          ∧ (buildEventSet gpMax offcoreMax request eventSelect).2._gpEvtCount
              = request._gpEvtCount
          ∧ (buildEventSet gpMax offcoreMax request eventSelect).2._offcoreEvtCount
              = request._offcoreEvtCount
          ∧ (∀ i, i < request._gpEvtCount →
              (buildEventSet gpMax offcoreMax request eventSelect).2._gpEvtSel i
                = buildPerfEvtSelBitmask (request._gpEvents i))
          ∧ (∀ i, i < request._offcoreEvtCount →
              (buildEventSet gpMax offcoreMax request eventSelect).2._offcoreEvtSel i
                = request._offcoreEvents i)) := by
  by_cases h : request._fixedEvtCount > 3 ∨ request._gpEvtCount > gpMax
      ∨ request._offcoreEvtCount > offcoreMax
  · rw [buildEventSet_of_count_over _ _ _ _ h]
    refine ⟨rfl, rfl, fun _ => ⟨rfl, rfl, fun _ => rfl, fun _ => rfl, rfl, rfl⟩,
      fun hn => absurd h hn⟩
  · obtain ⟨h1, h2, h3, h4, h5, h6, h7⟩ :=
      buildEventSet_of_counts_within gpMax offcoreMax request eventSelect
        (by omega) (by omega) (by omega)
    have hcause : request._fixedEvtCount ≠ 0
        ∧ buildFixedEvtGlobalCtlBitmask request._fixedEvents request._fixedEvtCount = 0 := by
      by_contra hc
      rw [h7, if_neg hc] at hfail
      simp at hfail
    refine ⟨?_, ?_, fun hover => absurd hover h, fun _ => ⟨?_, h1, h2, ?_, ?_⟩⟩
    · rw [h5, if_pos hcause.1, hcause.2]
    · rw [h6, if_neg (fun hc => hc.2 hcause.2)]
    · by_contra hc
      refine globalCtl_ne_zero_of_valid _ _ hcause.1 (fun j hj => ?_) hcause.2
      by_contra hj3
      exact hc ⟨j, hj, by omega⟩
    · intro i hi
      rw [h3 i, if_pos hi]
    · intro i hi
      rw [h4 i, if_pos hi]

/-- C5, amended, at the request with a fixed event on counter 3: the fixed-event registers are
zero and the general-purpose register has been stored. -/
theorem failed_build_output_witness :
    (buildEventSet 8 2 requestBadIndex EventSelect.zero).2._fixedEvtGlobalCtl = 0
      ∧ (buildEventSet 8 2 requestBadIndex EventSelect.zero).2._fixedEvtSel = 0
      ∧ (buildEventSet 8 2 requestBadIndex EventSelect.zero).2._gpEvtSel 0
          = buildPerfEvtSelBitmask (requestBadIndex._gpEvents 0) :=
  ⟨(failed_build_output 8 2 requestBadIndex EventSelect.zero (by decide)).1,
    (failed_build_output 8 2 requestBadIndex EventSelect.zero (by decide)).2.1,
    ((failed_build_output 8 2 requestBadIndex EventSelect.zero (by decide)).2.2.2
      (by decide)).2.2.2.1 0 (by decide)⟩

/-- C6: a request whose fixed-event count exceeds 3, or whose general-purpose or offcore count
exceeds its maximum, fails with status -1, and every field of the output is zero: no register
is packed and no count is stored, so no event is accepted. -/
theorem buildEventSet_rejects_count_over (gpMax offcoreMax : Nat) (request : PMUCtlRequest)
    (eventSelect : EventSelect)
    (h : request._fixedEvtCount > 3 ∨ request._gpEvtCount > gpMax
      ∨ request._offcoreEvtCount > offcoreMax) :
    (buildEventSet gpMax offcoreMax request eventSelect).1 = -1
      ∧ (buildEventSet gpMax offcoreMax request eventSelect).2.allZero := by
  rw [buildEventSet_of_count_over _ _ _ _ h]
  exact ⟨rfl, rfl, rfl, fun _ => rfl, fun _ => rfl, rfl, rfl⟩

/-- C6 at the request with four fixed events. -/
theorem buildEventSet_rejects_count_over_witness :
    (buildEventSet 8 2 requestTooManyFixed EventSelect.zero).1 = -1
      ∧ (buildEventSet 8 2 requestTooManyFixed EventSelect.zero).2.allZero :=
  buildEventSet_rejects_count_over 8 2 requestTooManyFixed EventSelect.zero
    (Or.inl (by decide))

/-- C7: a request with counts within the maxima in which one of the first `fixedEvtCount`
fixed events has counter index 3 or more fails with status -1, and both fixed-event registers
of the output are zero, whatever the indices of the other fixed events. -/
theorem buildEventSet_rejects_bad_index (gpMax offcoreMax : Nat) (request : PMUCtlRequest)
    (eventSelect : EventSelect) (hf : request._fixedEvtCount ≤ 3)
    (hg : request._gpEvtCount ≤ gpMax) (ho : request._offcoreEvtCount ≤ offcoreMax)
    (hbad : ∃ j, j < request._fixedEvtCount ∧ 3 ≤ (request._fixedEvents j)._ctrIndex) :
    (buildEventSet gpMax offcoreMax request eventSelect).1 = -1
      ∧ (buildEventSet gpMax offcoreMax request eventSelect).2._fixedEvtGlobalCtl = 0
      ∧ (buildEventSet gpMax offcoreMax request eventSelect).2._fixedEvtSel = 0 := by
  obtain ⟨_, _, _, _, h5, h6, h7⟩ :=
    buildEventSet_of_counts_within gpMax offcoreMax request eventSelect hf hg ho
  have hG := globalCtl_of_invalid request._fixedEvents request._fixedEvtCount hbad
  have hn : request._fixedEvtCount ≠ 0 := by
    obtain ⟨j, hj, _⟩ := hbad
    omega
  refine ⟨?_, ?_, ?_⟩
  · rw [h7, if_pos ⟨hn, hG⟩]
  · rw [h5, if_pos hn, hG]
  · rw [h6, if_neg (fun hc => hc.2 hG)]

/-- C7 at the request whose second fixed event names counter 3 while its first names
counter 1. -/
theorem buildEventSet_rejects_bad_index_witness :
    (buildEventSet 8 2 requestBadIndex EventSelect.zero).1 = -1
      ∧ (buildEventSet 8 2 requestBadIndex EventSelect.zero).2._fixedEvtGlobalCtl = 0
      ∧ (buildEventSet 8 2 requestBadIndex EventSelect.zero).2._fixedEvtSel = 0 :=
  buildEventSet_rejects_bad_index 8 2 requestBadIndex EventSelect.zero (by decide)
    (by decide) (by decide) ⟨1, by decide, by decide⟩

/-- C8: after a successful build the offcore register at every position below the offcore
count is the offcore event of the request at that position, unchanged, and the offcore
registers at all other positions are zero. -/
theorem offcoreEvtSel_passthrough (gpMax offcoreMax : Nat) (request : PMUCtlRequest)
    (eventSelect : EventSelect)
    (hok : (buildEventSet gpMax offcoreMax request eventSelect).1 = 0) :
    (∀ i, i < request._offcoreEvtCount →
        (buildEventSet gpMax offcoreMax request eventSelect).2._offcoreEvtSel i
          = request._offcoreEvents i)
      ∧ (∀ i, request._offcoreEvtCount ≤ i →
        (buildEventSet gpMax offcoreMax request eventSelect).2._offcoreEvtSel i = 0) := by
  obtain ⟨hf, hg, ho, _⟩ := counts_within_of_success _ _ _ _ hok
  have h4 :=
    (buildEventSet_of_counts_within gpMax offcoreMax request eventSelect hf hg ho).2.2.2.1
  refine ⟨fun i hi => ?_, fun i hi => ?_⟩
  · rw [h4 i, if_pos hi]
  · rw [h4 i, if_neg (by omega)]

/-- C8 at the example request: offcore register 0 holds the value 7 of the request,
register 1 is zero. -/
theorem offcoreEvtSel_passthrough_witness :
    (buildEventSet 8 2 requestExample EventSelect.zero).2._offcoreEvtSel 0 = 7
      ∧ (buildEventSet 8 2 requestExample EventSelect.zero).2._offcoreEvtSel 1 = 0 :=
  ⟨(offcoreEvtSel_passthrough 8 2 requestExample EventSelect.zero (by decide)).1 0
      (by decide),
    (offcoreEvtSel_passthrough 8 2 requestExample EventSelect.zero (by decide)).2 1
      (by decide)⟩

/-- C9, as stated, fails: the register of the example event is not `0x41002E41`. -/
theorem gpEventExample_register_ne :
    buildPerfEvtSelBitmask gpEventExample ≠ 0x41002E41 := by
  decide

/-- C9, amended: the register of the event with event select `0x2E`, unit mask `0x41`, user
set and every other flag and the counter mask zero is `0x0041412E`: event select in bits 0 to
7, unit mask in bits 8 to 15, user in bit 16 and enable in bit 22. -/
theorem gpEventExample_register :
    buildPerfEvtSelBitmask gpEventExample = 0x0041412E
      ∧ 0x0041412E = 0x2E ||| 0x41 <<< 8 ||| 1 <<< 16 ||| 1 <<< 22 := by
  constructor <;> decide

/-! ## The coordinator: claim C10 -/

theorem mem_keys_assign (m : PerfEventSetMap) (t : Int) (e : PerfEventSet) (x : Int) :
    x ∈ (m.assign t e).keys ↔ x = t ∨ x ∈ m.keys := by
  simp only [PerfEventSetMap.keys, PerfEventSetMap.assign, List.map_cons, List.mem_cons,
    List.mem_map, List.mem_filter, decide_eq_true_eq]
  constructor
  · rintro (h | ⟨b, ⟨hb, _⟩, rfl⟩)
    · exact Or.inl h
    · exact Or.inr ⟨b, hb, rfl⟩
  · rintro (h | ⟨b, hb, rfl⟩)
    · exact Or.inl h
    · by_cases hbt : b.1 = t
      · exact Or.inl hbt
      · exact Or.inr ⟨b, ⟨hb, hbt⟩, rfl⟩

theorem nodup_keys_assign (m : PerfEventSetMap) (t : Int) (e : PerfEventSet)
    (h : m.keys.Nodup) : (m.assign t e).keys.Nodup := by
  simp only [PerfEventSetMap.keys, PerfEventSetMap.assign, List.map_cons, List.nodup_cons]
  refine ⟨?_, ?_⟩
  · simp only [List.mem_map, List.mem_filter, decide_eq_true_eq]
    rintro ⟨b, ⟨_, hne⟩, rfl⟩
    exact hne rfl
  · exact (List.filter_sublist _).map Prod.fst |>.nodup h

/-- An attach on an enabled coordinator, run without interference: it installs the event set
when the kernel opened it and changes nothing otherwise. -/
theorem attachTo_of_enabled (c : PerfEventsCtl) (sb : SamplesBuffer) (opened : Bool)
    (h : c._isEnabled = true) :
    c.attachTo sb opened
      = if opened = true then
          (AttachResult.attached, c._activeEvents.find sb.tid,
            { c with
              _activeEvents :=
                c._activeEvents.assign sb.tid (openEventSet c.snapEventAttrs sb) })
        else (AttachResult.openFailed, none, c) := by
  cases opened <;>
    simp [PerfEventsCtl.attachTo, PerfEventsCtl.attachInstall, PerfEventsCtl.attachUnsafe,
      PerfEventsCtl.snapEventAttrs, openEventSet, h]

/-- What a sequence of attaches does to an enabled coordinator. -/
theorem afterAttaches_of_enabled (calls : List AttachCall) (c : PerfEventsCtl)
    (h : c._isEnabled = true) (hnd : c._activeEvents.keys.Nodup) :
    (c.afterAttaches calls)._isEnabled = true
      ∧ (c.afterAttaches calls)._generation = c._generation
      ∧ (c.afterAttaches calls)._activeEvents.keys.Nodup
      ∧ (∀ t, t ∈ (c.afterAttaches calls)._activeEvents.keys
          ↔ t ∈ c._activeEvents.keys ∨ t ∈ c.attachedTargets calls)
      ∧ (∀ t, t ∈ c.attachedTargets calls
          ↔ ∃ a, a ∈ calls ∧ a.opened = true ∧ a.samplesBuffer.tid = t) := by
  induction calls generalizing c with
  | nil => simp [PerfEventsCtl.afterAttaches, PerfEventsCtl.attachedTargets, h, hnd]
  | cons a rest ih =>
    obtain ⟨sb, opened⟩ := a
    rw [PerfEventsCtl.afterAttaches, PerfEventsCtl.attachedTargets]
    simp only []
    rw [attachTo_of_enabled c sb opened h]
    cases opened with
    | true =>
      simp only [if_true]
      obtain ⟨h1, h2, h3, h4, h5⟩ := ih
        { c with
          _activeEvents := c._activeEvents.assign sb.tid (openEventSet c.snapEventAttrs sb) }
        h (nodup_keys_assign _ _ _ hnd)
      refine ⟨h1, h2, h3, fun t => ?_, fun t => ?_⟩
      · rw [h4 t, mem_keys_assign, List.mem_cons]
        tauto
      · rw [List.mem_cons, h5 t]
        constructor
        · rintro (rfl | ⟨b, hb, hbo, hbt⟩)
          · exact ⟨_, List.mem_cons_self _ _, rfl, rfl⟩
          · exact ⟨b, List.mem_cons_of_mem _ hb, hbo, hbt⟩
        · rintro ⟨b, hb, hbo, hbt⟩
          rcases List.mem_cons.1 hb with rfl | hb
          · exact Or.inl hbt.symm
          · exact Or.inr ⟨b, hb, hbo, hbt⟩
    | false =>
      simp only [Bool.false_eq_true, if_false]
      obtain ⟨h1, h2, h3, h4, h5⟩ := ih c h hnd
      refine ⟨h1, h2, h3, h4, fun t => ?_⟩
      rw [if_neg (by decide), h5 t]
      constructor
      · rintro ⟨b, hb, hbo, hbt⟩
        exact ⟨b, List.mem_cons_of_mem _ hb, hbo, hbt⟩
      · rintro ⟨b, hb, hbo, hbt⟩
        rcases List.mem_cons.1 hb with rfl | hb
        · simp at hbo
        · exact ⟨b, hb, hbo, hbt⟩

/-- C10: after `enable(A)` and any sequence of `attachTo` calls, `disable()` returns a map
whose targets are exactly the targets attached since `enable(A)` (those whose `attachTo`
reported `attached`, which are those whose event set the kernel opened), with one binding
per target; it leaves the coordinator's own `activeEvents` map empty, and `isEnabled()` is
false afterwards. -/
theorem enable_disable_roundtrip (c : PerfEventsCtl) (eventAttrs : PerfEventAttrSet)
    (calls : List AttachCall) :
    (∀ t, t ∈ (((c.enable eventAttrs).2.2.afterAttaches calls).disable).1.keys
        ↔ t ∈ (c.enable eventAttrs).2.2.attachedTargets calls)
      ∧ (∀ t, t ∈ (c.enable eventAttrs).2.2.attachedTargets calls
        ↔ ∃ a, a ∈ calls ∧ a.opened = true ∧ a.samplesBuffer.tid = t)
      ∧ (((c.enable eventAttrs).2.2.afterAttaches calls).disable).1.keys.Nodup
      ∧ (((c.enable eventAttrs).2.2.afterAttaches calls).disable).2.activeEvents = []
      ∧ (((c.enable eventAttrs).2.2.afterAttaches calls).disable).2.isEnabled = false := by
  obtain ⟨_, _, h3, h4, h5⟩ := afterAttaches_of_enabled calls (c.enable eventAttrs).2.2 rfl
    (by simp [PerfEventsCtl.enable, PerfEventSetMap.keys])
  refine ⟨fun t => ?_, h5, h3, rfl, rfl⟩
  have := h4 t
  simpa [PerfEventsCtl.disable, PerfEventsCtl.enable, PerfEventSetMap.keys] using this

/-- C10 at the example coordinator: re-enabled with a new configuration, then three attaches
(target 20 twice, target 21 failing to open), then disabled: the map handed back binds
target 20 alone, and neither of the targets 10 and 11 attached before the `enable`. -/
theorem enable_disable_roundtrip_witness :
    (((coordinatorExample.enable [2]).2.2.afterAttaches attachCallsExample).disable).1.keys
        = [20]
      ∧ 20 ∈ (coordinatorExample.enable [2]).2.2.attachedTargets attachCallsExample
      ∧ (((coordinatorExample.enable [2]).2.2.afterAttaches
          attachCallsExample).disable).2.isEnabled = false :=
  ⟨by decide,
    ((enable_disable_roundtrip coordinatorExample [2] attachCallsExample).1 20).1 (by decide),
    (enable_disable_roundtrip coordinatorExample [2] attachCallsExample).2.2.2.2⟩

/-! ## The builder: claims C12 to C16 -/

theorem feEnablemask_pos (e : PMUFixedEvent) : 1 ≤ feEnablemask e := by
  unfold feEnablemask; split
  · omega
  · split <;> omega

/-- The least index below `n` with a given counter index, when there is one. -/
theorem exists_first_index (fixedEvents : Nat → PMUFixedEvent) (n c : Nat)
    (h : ∃ j, j < n ∧ (fixedEvents j)._ctrIndex = c) :
    ∃ j, j < n ∧ (fixedEvents j)._ctrIndex = c
      ∧ ∀ k, k < j → (fixedEvents k)._ctrIndex ≠ c := by
  induction n with
  | zero => obtain ⟨j, hj, _⟩ := h; omega
  | succ n ih =>
    by_cases hn : ∃ j, j < n ∧ (fixedEvents j)._ctrIndex = c
    · obtain ⟨j, hj, hc, hfirst⟩ := ih hn
      exact ⟨j, by omega, hc, hfirst⟩
    · obtain ⟨j, hj, hc⟩ := h
      have hjn : j = n := by
        by_contra hne
        exact hn ⟨j, by omega, hc⟩
      subst hjn
      exact ⟨j, hj, hc, fun k hk hkc => hn ⟨k, hk, hkc⟩⟩

/-- The enable mask of a counter is non-zero exactly when a fixed event names the counter. -/
theorem enableOf_find_ne_zero_iff (fixedEvents : Nat → PMUFixedEvent) (n c : Nat) :
    enableOf (findFixedEvtForCtr c fixedEvents n) ≠ 0
      ↔ ∃ j, j < n ∧ (fixedEvents j)._ctrIndex = c := by
  constructor
  · intro hne
    by_contra hnone
    apply hne
    rw [findFixedEvtForCtr, findLoop_none c fixedEvents n 0
      (fun j _ hj hc => hnone ⟨j, by omega, hc⟩)]
    rfl
  · intro h
    obtain ⟨j, hj, hc, hfirst⟩ := exists_first_index fixedEvents n c h
    rw [findFixedEvtForCtr, findLoop_first c fixedEvents n 0 j (Nat.zero_le _) (by omega) hc
      (fun k _ hk => hfirst k hk)]
    have := feEnablemask_pos (fixedEvents j)
    simp only [enableOf]
    omega

/-- The enable field of group `i` of the built select register is the enable mask of
counter `i`. -/
theorem fixedEnableField_build (fixedEvents : Nat → PMUFixedEvent) (n i : Nat) (hi : i < 3) :
    fixedEnableField (buildFixedEvtSelBitmask fixedEvents n) i
      = enableOf (findFixedEvtForCtr i fixedEvents n) := by
  have h0 := enableOf_le (findFixedEvtForCtr 0 fixedEvents n)
  have h1 := enableOf_le (findFixedEvtForCtr 1 fixedEvents n)
  have h2 := enableOf_le (findFixedEvtForCtr 2 fixedEvents n)
  rw [fixedEnableField, buildFixedEvtSelBitmask_eq_sum]
  interval_cases i
  · simp only [Nat.mul_zero, Nat.pow_zero, Nat.div_one]; omega
  · simp only [Nat.mul_one]; omega
  · omega

/-- The enable field is non-zero exactly when one of its two bits is set. -/
theorem fixedEnableField_ne_zero_iff (sel i : Nat) :
    fixedEnableField sel i ≠ 0
      ↔ (sel.testBit (4 * i) = true ∨ sel.testBit (4 * i + 1) = true) := by
  simp only [fixedEnableField, Nat.testBit_to_div_mod, decide_eq_true_eq, Nat.pow_succ,
    ← Nat.div_div_eq_div_mul]
  omega

/-- C12: after a successful build the two fixed-event registers agree: for each counter `i`
among 0, 1, 2, the 2-bit enable field of group `i` of the select register (bits `4 * i` and
`4 * i + 1`) is non-zero if and only if bit `i` of the global-control register is set. -/
theorem fixed_registers_agree (gpMax offcoreMax : Nat) (request : PMUCtlRequest)
    (eventSelect : EventSelect)
    (hok : (buildEventSet gpMax offcoreMax request eventSelect).1 = 0) (i : Nat)
    (hi : i < 3) :
    (fixedEnableField (buildEventSet gpMax offcoreMax request eventSelect).2._fixedEvtSel i ≠ 0
        ↔ (buildEventSet gpMax offcoreMax request eventSelect).2._fixedEvtGlobalCtl.testBit i
            = true)
      ∧ (((buildEventSet gpMax offcoreMax request eventSelect).2._fixedEvtSel.testBit (4 * i)
            = true
          ∨ (buildEventSet gpMax offcoreMax request eventSelect).2._fixedEvtSel.testBit
              (4 * i + 1) = true)
        ↔ (buildEventSet gpMax offcoreMax request eventSelect).2._fixedEvtGlobalCtl.testBit i
            = true) := by
  obtain ⟨hf, hg, ho, hG⟩ := counts_within_of_success _ _ _ _ hok
  obtain ⟨_, _, _, _, h5, h6, _⟩ :=
    buildEventSet_of_counts_within gpMax offcoreMax request eventSelect hf hg ho
  have hmain :
      fixedEnableField (buildEventSet gpMax offcoreMax request eventSelect).2._fixedEvtSel i ≠ 0
        ↔ (buildEventSet gpMax offcoreMax request eventSelect).2._fixedEvtGlobalCtl.testBit i
            = true := by
    rw [h5, h6]
    by_cases hn : request._fixedEvtCount = 0
    · rw [if_neg (by simp [hn]), if_neg (by simp [hn])]
      simp [fixedEnableField]
    · rw [if_pos ⟨hn, hG hn⟩, if_pos hn, fixedEnableField_build _ _ _ hi,
        enableOf_find_ne_zero_iff,
        (globalCtl_of_valid _ _ (valid_of_globalCtl_ne_zero _ _ (hG hn))).2 i]
  exact ⟨hmain, (fixedEnableField_ne_zero_iff _ _).symm.trans hmain⟩

/-- C12 at the example request (fixed events on counters 0 and 2): group 0 is enabled and bit
0 of the global control is set. -/
theorem fixed_registers_agree_witness :
    (fixedEnableField (buildEventSet 8 2 requestExample EventSelect.zero).2._fixedEvtSel 0 ≠ 0
        ↔ (buildEventSet 8 2 requestExample EventSelect.zero).2._fixedEvtGlobalCtl.testBit 0
            = true)
      ∧ fixedEnableField (buildEventSet 8 2 requestExample EventSelect.zero).2._fixedEvtSel 0
          = 3
      ∧ fixedEnableField (buildEventSet 8 2 requestExample EventSelect.zero).2._fixedEvtSel 1
          = 0 :=
  ⟨(fixed_registers_agree 8 2 requestExample EventSelect.zero (by decide) 0 (by decide)).1,
    by decide, by decide⟩

/-! ### What the build depends on -/

/-- The global-control loop reads nothing but the counter indices of the entries it visits. -/
theorem globalCtl_loop_congr (f g : Nat → PMUFixedEvent) (n i value : Nat)
    (h : ∀ j, i ≤ j → j < i + n → (f j)._ctrIndex = (g j)._ctrIndex) :
    buildFixedEvtGlobalCtlBitmask.loop f n i value
      = buildFixedEvtGlobalCtlBitmask.loop g n i value := by
  induction n generalizing i value with
  | zero => rfl
  | succ n ih =>
    rw [buildFixedEvtGlobalCtlBitmask.loop, buildFixedEvtGlobalCtlBitmask.loop,
      h i (Nat.le_refl _) (by omega), ih (i + 1) _ (fun j h1 h2 => h j (by omega) (by omega))]

/-- The search loop gives the same event on two arrays with the same counter indices that
hold the same event wherever an index occurs for the first time. -/
theorem findLoop_congr (c : Nat) (f g : Nat → PMUFixedEvent) (n i : Nat)
    (hidx : ∀ j, j < i + n → (g j)._ctrIndex = (f j)._ctrIndex)
    (hbefore : ∀ k, k < i → (f k)._ctrIndex ≠ c)
    (hfirst : ∀ k, k < i + n → (∀ m, m < k → (f m)._ctrIndex ≠ (f k)._ctrIndex) → g k = f k) :
    findFixedEvtForCtr.loop c g n i = findFixedEvtForCtr.loop c f n i := by
  induction n generalizing i with
  | zero => rfl
  | succ n ih =>
    rw [findFixedEvtForCtr.loop, findFixedEvtForCtr.loop, hidx i (by omega)]
    by_cases hc : (f i)._ctrIndex = c
    · rw [if_pos hc, if_pos hc,
        hfirst i (by omega) (fun m hm => by rw [hc]; exact hbefore m hm)]
    · rw [if_neg hc, if_neg hc]
      apply ih (i + 1)
      · intro j hj; exact hidx j (by omega)
      · intro k hk
        by_cases hki : k = i
        · subst hki; exact hc
        · exact hbefore k (by omega)
      · intro k hk; exact hfirst k (by omega)

/-- Two records with the same fields are the same record. -/
theorem EventSelect.eq_of_fields (a b : EventSelect)
    (h1 : a._fixedEvtGlobalCtl = b._fixedEvtGlobalCtl) (h2 : a._fixedEvtSel = b._fixedEvtSel)
    (h3 : ∀ j, a._gpEvtSel j = b._gpEvtSel j)
    (h4 : ∀ j, a._offcoreEvtSel j = b._offcoreEvtSel j)
    (h5 : a._gpEvtCount = b._gpEvtCount) (h6 : a._offcoreEvtCount = b._offcoreEvtCount) :
    a = b := by
  cases a
  cases b
  simp only [EventSelect.mk.injEq]
  exact ⟨h1, h2, funext h3, funext h4, h5, h6⟩

/-- The build reads the three counts, the general-purpose and offcore events below their
counts, and the fixed events through the two fixed-event registers; the record it is handed
is overwritten. -/
theorem buildEventSet_congr (gpMax offcoreMax : Nat) (r1 r2 : PMUCtlRequest)
    (es1 es2 : EventSelect) (hcf : r1._fixedEvtCount = r2._fixedEvtCount)
    (hcg : r1._gpEvtCount = r2._gpEvtCount)
    (hco : r1._offcoreEvtCount = r2._offcoreEvtCount)
    (hgp : ∀ j, j < r1._gpEvtCount → r1._gpEvents j = r2._gpEvents j)
    (hoc : ∀ j, j < r1._offcoreEvtCount → r1._offcoreEvents j = r2._offcoreEvents j)
    (hG : buildFixedEvtGlobalCtlBitmask r1._fixedEvents r1._fixedEvtCount
      = buildFixedEvtGlobalCtlBitmask r2._fixedEvents r2._fixedEvtCount)
    (hS : buildFixedEvtSelBitmask r1._fixedEvents r1._fixedEvtCount
      = buildFixedEvtSelBitmask r2._fixedEvents r2._fixedEvtCount) :
    buildEventSet gpMax offcoreMax r1 es1 = buildEventSet gpMax offcoreMax r2 es2 := by
  by_cases h : r1._fixedEvtCount > 3 ∨ r1._gpEvtCount > gpMax
      ∨ r1._offcoreEvtCount > offcoreMax
  · rw [buildEventSet_of_count_over _ _ r1 es1 h,
      buildEventSet_of_count_over _ _ r2 es2 (by rw [← hcf, ← hcg, ← hco]; exact h)]
    rfl
  · obtain ⟨a1, a2, a3, a4, a5, a6, a7⟩ :=
      buildEventSet_of_counts_within gpMax offcoreMax r1 es1 (by omega) (by omega) (by omega)
    obtain ⟨b1, b2, b3, b4, b5, b6, b7⟩ :=
      buildEventSet_of_counts_within gpMax offcoreMax r2 es2 (by omega) (by omega) (by omega)
    refine Prod.ext ?_ (EventSelect.eq_of_fields _ _ ?_ ?_ (fun j => ?_) (fun j => ?_) ?_ ?_)
    · rw [a7, b7, hG, hcf]
    · rw [a5, b5, hG, hcf]
    · rw [a6, b6, hG, hS, hcf]
    · rw [a3 j, b3 j, ← hcg]
      by_cases hj : j < r1._gpEvtCount
      · rw [if_pos hj, if_pos hj, hgp j hj]
      · rw [if_neg hj, if_neg hj]
    · rw [a4 j, b4 j, ← hco]
      by_cases hj : j < r1._offcoreEvtCount
      · rw [if_pos hj, if_pos hj, hoc j hj]
      · rw [if_neg hj, if_neg hj]
    · rw [a1, b1, hcg]
    · rw [a2, b2, hco]

/-- The select register is the same for two arrays with the same counter indices that hold
the same event wherever an index occurs for the first time. -/
theorem buildFixedEvtSelBitmask_congr (f g : Nat → PMUFixedEvent) (n : Nat)
    (hidx : ∀ j, j < n → (g j)._ctrIndex = (f j)._ctrIndex)
    (hfirst : ∀ k, k < n → (∀ m, m < k → (f m)._ctrIndex ≠ (f k)._ctrIndex) → g k = f k) :
    buildFixedEvtSelBitmask g n = buildFixedEvtSelBitmask f n := by
  have hfind : ∀ c, findFixedEvtForCtr c g n = findFixedEvtForCtr c f n := fun c =>
    findLoop_congr c f g n 0 (fun j hj => hidx j (by omega)) (fun k hk => by omega)
      (fun k hk => hfirst k (by omega))
  rw [buildFixedEvtSelBitmask_eq_sum, buildFixedEvtSelBitmask_eq_sum, hfind 0, hfind 1,
    hfind 2]

/-- C14: the build is a function of the meaningful part of the request: two requests with the
same three counts that agree on the general-purpose, offcore and fixed events below the
respective counts give the same status and the same output record, whatever the two output
records held before and whatever the request arrays hold beyond the counts. -/
theorem buildEventSet_deterministic (gpMax offcoreMax : Nat) (r1 r2 : PMUCtlRequest)
    (es1 es2 : EventSelect) (hcf : r1._fixedEvtCount = r2._fixedEvtCount)
    (hcg : r1._gpEvtCount = r2._gpEvtCount)
    (hco : r1._offcoreEvtCount = r2._offcoreEvtCount)
    (hgp : ∀ j, j < r1._gpEvtCount → r1._gpEvents j = r2._gpEvents j)
    (hoc : ∀ j, j < r1._offcoreEvtCount → r1._offcoreEvents j = r2._offcoreEvents j)
    (hfx : ∀ j, j < r1._fixedEvtCount → r1._fixedEvents j = r2._fixedEvents j) :
    (buildEventSet gpMax offcoreMax r1 es1).1 = (buildEventSet gpMax offcoreMax r2 es2).1
      ∧ (buildEventSet gpMax offcoreMax r1 es1).2
          = (buildEventSet gpMax offcoreMax r2 es2).2 := by
  have h : buildEventSet gpMax offcoreMax r1 es1 = buildEventSet gpMax offcoreMax r2 es2 := by
    apply buildEventSet_congr _ _ _ _ _ _ hcf hcg hco hgp hoc
    · rw [← hcf]
      exact globalCtl_loop_congr _ _ _ 0 0 (fun j _ hj => by rw [hfx j (by omega)])
    · rw [← hcf]
      exact (buildFixedEvtSelBitmask_congr _ _ _ (fun j hj => by rw [hfx j hj])
        (fun k hk _ => (hfx k hk).symm)).symm
  rw [h]
  exact ⟨rfl, rfl⟩

/-- C14 at the example request and a copy of it with other contents beyond the counts, built
into a zeroed and into a used output record. -/
theorem buildEventSet_deterministic_witness :
    (buildEventSet 8 2 requestExample EventSelect.zero).1
        = (buildEventSet 8 2 requestExamplePadded eventSelectDirty).1
      ∧ (buildEventSet 8 2 requestExample EventSelect.zero).2
          = (buildEventSet 8 2 requestExamplePadded eventSelectDirty).2 :=
  buildEventSet_deterministic 8 2 requestExample requestExamplePadded EventSelect.zero
    eventSelectDirty (by decide) (by decide) (by decide) (by decide) (by decide) (by decide)

/-- C13: a valid request (counts within the maxima, every fixed index below 3) is built with
status 0 also when several of its fixed events share a counter index `i`; the enable field of
group `i` of the select register is the enable mask of the first event with index `i` in
request order; and changing the fixed events anywhere but at the first occurrence of each
index, counter indices kept, changes neither the status nor any field of the output. -/
theorem duplicate_index_first_wins (gpMax offcoreMax : Nat) (request : PMUCtlRequest)
    (eventSelect eventSelect' : EventSelect) (fixedEvents' : Nat → PMUFixedEvent)
    (hf : request._fixedEvtCount ≤ 3) (hg : request._gpEvtCount ≤ gpMax)
    (ho : request._offcoreEvtCount ≤ offcoreMax)
    (hidx : ∀ k, k < request._fixedEvtCount → (request._fixedEvents k)._ctrIndex < 3)
    (i j : Nat) (hj : j < request._fixedEvtCount)
    (hji : (request._fixedEvents j)._ctrIndex = i)
    (hfirst : ∀ k, k < j → (request._fixedEvents k)._ctrIndex ≠ i)
    (hsameIdx : ∀ k, k < request._fixedEvtCount →
      (fixedEvents' k)._ctrIndex = (request._fixedEvents k)._ctrIndex)
    (hsameFirst : ∀ k, k < request._fixedEvtCount →
      (∀ m, m < k → (request._fixedEvents m)._ctrIndex ≠ (request._fixedEvents k)._ctrIndex) →
      fixedEvents' k = request._fixedEvents k) :
    (buildEventSet gpMax offcoreMax request eventSelect).1 = 0
      ∧ fixedEnableField (buildEventSet gpMax offcoreMax request eventSelect).2._fixedEvtSel i
          = feEnablemask (request._fixedEvents j)
      ∧ buildEventSet gpMax offcoreMax { request with _fixedEvents := fixedEvents' }
            eventSelect'
          = buildEventSet gpMax offcoreMax request eventSelect := by
  obtain ⟨_, _, _, _, _, h6, h7⟩ :=
    buildEventSet_of_counts_within gpMax offcoreMax request eventSelect hf hg ho
  have hn : request._fixedEvtCount ≠ 0 := by omega
  have hG := globalCtl_ne_zero_of_valid _ _ hn hidx
  have hi : i < 3 := by rw [← hji]; exact hidx j hj
  refine ⟨?_, ?_, ?_⟩
  · rw [h7, if_neg (fun hc => hG hc.2)]
  · rw [h6, if_pos ⟨hn, hG⟩, fixedEnableField_build _ _ _ hi, findFixedEvtForCtr,
      findLoop_first i _ _ 0 j (Nat.zero_le _) (by omega) hji (fun k _ hk => hfirst k hk)]
    rfl
  · apply buildEventSet_congr gpMax offcoreMax { request with _fixedEvents := fixedEvents' }
      request eventSelect' eventSelect rfl rfl rfl (fun _ _ => rfl) (fun _ _ => rfl)
    · exact globalCtl_loop_congr fixedEvents' request._fixedEvents request._fixedEvtCount 0 0
        (fun k _ hk => hsameIdx k (by omega))
    · exact buildFixedEvtSelBitmask_congr request._fixedEvents fixedEvents'
        request._fixedEvtCount hsameIdx hsameFirst

/-- C13 at the request with two fixed events on counter 0: the build succeeds, group 0 gets
the mask 2 of the first of them (user only), and clearing the flags of the second changes
nothing. -/
theorem duplicate_index_first_wins_witness :
    (buildEventSet 8 2 requestDuplicateIndex EventSelect.zero).1 = 0
      ∧ fixedEnableField
          (buildEventSet 8 2 requestDuplicateIndex EventSelect.zero).2._fixedEvtSel 0
          = feEnablemask { _ctrIndex := 0, _user := 1, _kernel := 0 }
      ∧ buildEventSet 8 2 { requestDuplicateIndex with _fixedEvents := fixedEventsDuplicateAlt }
            eventSelectDirty
          = buildEventSet 8 2 requestDuplicateIndex EventSelect.zero :=
  duplicate_index_first_wins 8 2 requestDuplicateIndex EventSelect.zero eventSelectDirty
    fixedEventsDuplicateAlt (by decide) (by decide) (by decide) (by decide) 0 0 (by decide)
    (by decide) (by decide) (by decide) (by decide)

/-! ### Unpacking a general-purpose register -/

theorem shiftRight_and_255 (x k : Nat) : (x >>> k) &&& 0xFF = x / 2 ^ k % 256 := by
  rw [Nat.shiftRight_eq_div_pow]
  exact Nat.and_pow_two_sub_one_eq_mod _ 8

theorem shiftRight_and_one (x k : Nat) : (x >>> k) &&& 1 = x / 2 ^ k % 2 := by
  rw [Nat.shiftRight_eq_div_pow, Nat.and_one_is_mod]

/-- The fields of a byte-sized general-purpose event, read back from its register by shifting
and masking; a flag is read back as 0 or 1. -/
theorem buildPerfEvtSelBitmask_unpack (e : PMUGpEvent) (he : e.isByteSized) :
    (buildPerfEvtSelBitmask e >>> 0) &&& 0xFF = e._eventSelect
      ∧ (buildPerfEvtSelBitmask e >>> 8) &&& 0xFF = e._unitMask
      ∧ (buildPerfEvtSelBitmask e >>> 24) &&& 0xFF = e._counterMask
      ∧ (buildPerfEvtSelBitmask e >>> 16) &&& 1 = neZero e._user
      ∧ (buildPerfEvtSelBitmask e >>> 17) &&& 1 = neZero e._kernel
      ∧ (buildPerfEvtSelBitmask e >>> 18) &&& 1 = neZero e._edgeDetect
      ∧ (buildPerfEvtSelBitmask e >>> 21) &&& 1 = neZero e._anyThread
      ∧ (buildPerfEvtSelBitmask e >>> 23) &&& 1 = neZero e._invertCMask := by
  obtain ⟨h1, h2, h3⟩ := he
  have hu := neZero_le_one e._user
  have hk := neZero_le_one e._kernel
  have hed := neZero_le_one e._edgeDetect
  have han := neZero_le_one e._anyThread
  have hinv := neZero_le_one e._invertCMask
  simp only [shiftRight_and_255, shiftRight_and_one, buildPerfEvtSelBitmask_eq_sum,
    Nat.mod_eq_of_lt h1, Nat.mod_eq_of_lt h2, Nat.mod_eq_of_lt h3]
  refine ⟨?_, ?_, ?_, ?_, ?_, ?_, ?_, ?_⟩ <;> omega

theorem neZero_eq_iff (x y : Nat) : neZero x = neZero y ↔ (x ≠ 0 ↔ y ≠ 0) := by
  unfold neZero
  by_cases hx : x = 0 <;> by_cases hy : y = 0 <;> simp [hx, hy]

/-- C15: the general-purpose packing loses no information: for an event whose 8-bit fields
are in range, event select, unit mask and counter mask are read back from the register by
shifting and masking with `0xFF`, and each of the five flags is read back by shifting and
masking with 1, giving 1 exactly when the flag is non-zero; hence two such events with equal
registers have equal event select, unit mask and counter mask and flags of equal truth
value. -/
theorem gp_packing_lossless :
    (∀ e : PMUGpEvent, e.isByteSized →
        (buildPerfEvtSelBitmask e >>> 0) &&& 0xFF = e._eventSelect
          ∧ (buildPerfEvtSelBitmask e >>> 8) &&& 0xFF = e._unitMask
          ∧ (buildPerfEvtSelBitmask e >>> 24) &&& 0xFF = e._counterMask
          ∧ ((buildPerfEvtSelBitmask e >>> 16) &&& 1 = 1 ↔ e._user ≠ 0)
          ∧ ((buildPerfEvtSelBitmask e >>> 17) &&& 1 = 1 ↔ e._kernel ≠ 0)
          ∧ ((buildPerfEvtSelBitmask e >>> 18) &&& 1 = 1 ↔ e._edgeDetect ≠ 0)
          ∧ ((buildPerfEvtSelBitmask e >>> 21) &&& 1 = 1 ↔ e._anyThread ≠ 0)
          ∧ ((buildPerfEvtSelBitmask e >>> 23) &&& 1 = 1 ↔ e._invertCMask ≠ 0))
      ∧ (∀ e1 e2 : PMUGpEvent, e1.isByteSized → e2.isByteSized →
          buildPerfEvtSelBitmask e1 = buildPerfEvtSelBitmask e2 →
          e1._eventSelect = e2._eventSelect ∧ e1._unitMask = e2._unitMask
            ∧ e1._counterMask = e2._counterMask
            ∧ (e1._user ≠ 0 ↔ e2._user ≠ 0) ∧ (e1._kernel ≠ 0 ↔ e2._kernel ≠ 0)
            ∧ (e1._edgeDetect ≠ 0 ↔ e2._edgeDetect ≠ 0)
            ∧ (e1._anyThread ≠ 0 ↔ e2._anyThread ≠ 0)
            ∧ (e1._invertCMask ≠ 0 ↔ e2._invertCMask ≠ 0)) := by
  constructor
  · intro e he
    obtain ⟨a1, a2, a3, a4, a5, a6, a7, a8⟩ := buildPerfEvtSelBitmask_unpack e he
    refine ⟨a1, a2, a3, ?_, ?_, ?_, ?_, ?_⟩
    · rw [a4]; exact neZero_eq_one_iff _
    · rw [a5]; exact neZero_eq_one_iff _
    · rw [a6]; exact neZero_eq_one_iff _
    · rw [a7]; exact neZero_eq_one_iff _
    · rw [a8]; exact neZero_eq_one_iff _
  · intro e1 e2 he1 he2 heq
    obtain ⟨a1, a2, a3, a4, a5, a6, a7, a8⟩ := buildPerfEvtSelBitmask_unpack e1 he1
    obtain ⟨b1, b2, b3, b4, b5, b6, b7, b8⟩ := buildPerfEvtSelBitmask_unpack e2 he2
    rw [heq] at a1 a2 a3 a4 a5 a6 a7 a8
    refine ⟨a1.symm.trans b1, a2.symm.trans b2, a3.symm.trans b3,
      (neZero_eq_iff _ _).1 (a4.symm.trans b4), (neZero_eq_iff _ _).1 (a5.symm.trans b5),
      (neZero_eq_iff _ _).1 (a6.symm.trans b6), (neZero_eq_iff _ _).1 (a7.symm.trans b7),
      (neZero_eq_iff _ _).1 (a8.symm.trans b8)⟩

/-- C15 at the example event and its copy with user flag 5: the unit mask is read back, and
the two events, which have the same register, have user flags of the same truth value. -/
theorem gp_packing_lossless_witness :
    (buildPerfEvtSelBitmask gpEventExample >>> 8) &&& 0xFF = 0x41
      ∧ (gpEventExample._user ≠ 0 ↔ gpEventExampleUser5._user ≠ 0) :=
  ⟨(gp_packing_lossless.1 gpEventExample (by decide)).2.1,
    (gp_packing_lossless.2 gpEventExample gpEventExampleUser5 (by decide) (by decide)
      (by decide)).2.2.2.1⟩

/-! ### Reordering the fixed events -/

theorem arrayOf_of_lt {α : Type} (l : List α) (d : α) (j : Nat) (h : j < l.length) :
    arrayOf l d j = l.get ⟨j, h⟩ := by
  unfold arrayOf
  rw [List.getD_eq_getElem?_getD, List.getElem?_eq_getElem h]
  rfl

/-- An entry of the array below the length of the list is an element of the list, and every
element of the list is such an entry. -/
theorem exists_index_iff_exists_mem (l : List PMUFixedEvent) (d : PMUFixedEvent)
    (P : PMUFixedEvent → Prop) :
    (∃ j, j < l.length ∧ P (arrayOf l d j)) ↔ ∃ e, e ∈ l ∧ P e := by
  constructor
  · rintro ⟨j, hj, hP⟩
    rw [arrayOf_of_lt l d j hj] at hP
    exact ⟨_, List.get_mem l j hj, hP⟩
  · rintro ⟨e, he, hP⟩
    obtain ⟨n, hn⟩ := List.mem_iff_get.1 he
    refine ⟨n.1, n.2, ?_⟩
    rw [arrayOf_of_lt l d n.1 n.2]
    rw [← hn] at hP
    exact hP

/-- The global-control value of a list does not depend on the order of the list. -/
theorem globalCtl_perm (l1 l2 : List PMUFixedEvent) (d : PMUFixedEvent) (hp : l1.Perm l2) :
    buildFixedEvtGlobalCtlBitmask (arrayOf l1 d) l1.length
      = buildFixedEvtGlobalCtlBitmask (arrayOf l2 d) l2.length := by
  by_cases hbad : ∃ e, e ∈ l1 ∧ 3 ≤ e._ctrIndex
  · have hbad2 : ∃ e, e ∈ l2 ∧ 3 ≤ e._ctrIndex := by
      obtain ⟨e, he, h3⟩ := hbad
      exact ⟨e, hp.mem_iff.1 he, h3⟩
    rw [globalCtl_of_invalid _ _ ((exists_index_iff_exists_mem l1 d _).2 hbad),
      globalCtl_of_invalid _ _ ((exists_index_iff_exists_mem l2 d _).2 hbad2)]
  · have hv1 : ∀ j, j < l1.length → (arrayOf l1 d j)._ctrIndex < 3 := by
      intro j hj
      by_contra hc
      exact hbad ((exists_index_iff_exists_mem l1 d (fun e => 3 ≤ e._ctrIndex)).1
        ⟨j, hj, by omega⟩)
    have hv2 : ∀ j, j < l2.length → (arrayOf l2 d j)._ctrIndex < 3 := by
      intro j hj
      by_contra hc
      obtain ⟨e, he, h3⟩ := (exists_index_iff_exists_mem l2 d (fun e => 3 ≤ e._ctrIndex)).1
        ⟨j, hj, by omega⟩
      exact hbad ⟨e, hp.mem_iff.2 he, h3⟩
    apply Nat.eq_of_testBit_eq
    intro b
    rw [Bool.eq_iff_iff, (globalCtl_of_valid _ _ hv1).2 b, (globalCtl_of_valid _ _ hv2).2 b,
      exists_index_iff_exists_mem l1 d (fun e => e._ctrIndex = b),
      exists_index_iff_exists_mem l2 d (fun e => e._ctrIndex = b)]
    constructor
    · rintro ⟨e, he, hb⟩; exact ⟨e, hp.mem_iff.1 he, hb⟩
    · rintro ⟨e, he, hb⟩; exact ⟨e, hp.mem_iff.2 he, hb⟩

/-- In a list with pairwise distinct counter indices the search for the index of an element
finds that element. -/
theorem find_of_mem_of_nodup (l : List PMUFixedEvent) (d : PMUFixedEvent)
    (hnd : (l.map (fun e => e._ctrIndex)).Nodup) (e : PMUFixedEvent) (he : e ∈ l) :
    findFixedEvtForCtr e._ctrIndex (arrayOf l d) l.length = some e := by
  obtain ⟨j, hj, hc, hfirst⟩ := exists_first_index (arrayOf l d) l.length e._ctrIndex
    ((exists_index_iff_exists_mem l d (fun x => x._ctrIndex = e._ctrIndex)).2 ⟨e, he, rfl⟩)
  rw [findFixedEvtForCtr, findLoop_first _ _ _ 0 j (Nat.zero_le _) (by omega) hc
    (fun k _ hk => hfirst k hk)]
  have hmem : arrayOf l d j ∈ l := by
    rw [arrayOf_of_lt l d j hj]
    exact List.get_mem l j hj
  rw [List.inj_on_of_nodup_map hnd hmem he hc]

/-- Without an element of a given counter index the search finds nothing. -/
theorem find_of_not_mem (l : List PMUFixedEvent) (d : PMUFixedEvent) (c : Nat)
    (h : ∀ e, e ∈ l → e._ctrIndex ≠ c) :
    findFixedEvtForCtr c (arrayOf l d) l.length = none := by
  apply findLoop_none
  intro j _ hj hc
  obtain ⟨e, he, hec⟩ := (exists_index_iff_exists_mem l d (fun x => x._ctrIndex = c)).1
    ⟨j, by omega, hc⟩
  exact h e he hec

/-- With pairwise distinct counter indices the search does not depend on the order. -/
theorem find_perm (l1 l2 : List PMUFixedEvent) (d : PMUFixedEvent) (hp : l1.Perm l2)
    (hnd : (l1.map (fun e => e._ctrIndex)).Nodup) (c : Nat) :
    findFixedEvtForCtr c (arrayOf l1 d) l1.length
      = findFixedEvtForCtr c (arrayOf l2 d) l2.length := by
  have hnd2 : (l2.map (fun e => e._ctrIndex)).Nodup := (hp.map _).nodup_iff.1 hnd
  by_cases h : ∃ e, e ∈ l1 ∧ e._ctrIndex = c
  · obtain ⟨e, he, rfl⟩ := h
    rw [find_of_mem_of_nodup l1 d hnd e he,
      find_of_mem_of_nodup l2 d hnd2 e (hp.mem_iff.1 he)]
  · rw [find_of_not_mem l1 d c (fun e he hc => h ⟨e, he, hc⟩),
      find_of_not_mem l2 d c (fun e he hc => h ⟨e, hp.mem_iff.2 he, hc⟩)]

/-- C16: reordering the fixed events of a request leaves the global-control register
unchanged, whatever the counter indices (repeated or not); and when the counter indices are
pairwise distinct (in particular when they are also all below 3) it leaves the fixed-event
select register unchanged as well. -/
theorem fixed_registers_perm (l1 l2 : List PMUFixedEvent) (d : PMUFixedEvent)
    (hp : l1.Perm l2) :
    buildFixedEvtGlobalCtlBitmask (arrayOf l1 d) l1.length
        = buildFixedEvtGlobalCtlBitmask (arrayOf l2 d) l2.length
      ∧ ((l1.map (fun e => e._ctrIndex)).Nodup →
          buildFixedEvtSelBitmask (arrayOf l1 d) l1.length
            = buildFixedEvtSelBitmask (arrayOf l2 d) l2.length) := by
  refine ⟨globalCtl_perm l1 l2 d hp, fun hnd => ?_⟩
  rw [buildFixedEvtSelBitmask_eq_sum, buildFixedEvtSelBitmask_eq_sum,
    find_perm l1 l2 d hp hnd 0, find_perm l1 l2 d hp hnd 1, find_perm l1 l2 d hp hnd 2]

/-- C16 at the two fixed events on counters 0 and 2, in both orders: the global control is 5
and the select register `0x203` either way. -/
theorem fixed_registers_perm_witness :
    (buildFixedEvtGlobalCtlBitmask (arrayOf fixedListExample PMUFixedEvent.zero) 2
        = buildFixedEvtGlobalCtlBitmask (arrayOf fixedListExampleSwapped PMUFixedEvent.zero) 2
      ∧ buildFixedEvtSelBitmask (arrayOf fixedListExample PMUFixedEvent.zero) 2
        = buildFixedEvtSelBitmask (arrayOf fixedListExampleSwapped PMUFixedEvent.zero) 2)
      ∧ buildFixedEvtGlobalCtlBitmask (arrayOf fixedListExampleSwapped PMUFixedEvent.zero) 2 = 5
      ∧ buildFixedEvtSelBitmask (arrayOf fixedListExampleSwapped PMUFixedEvent.zero) 2
        = 0x203 :=
  ⟨⟨(fixed_registers_perm fixedListExample fixedListExampleSwapped PMUFixedEvent.zero
        (List.Perm.swap _ _ _)).1,
      (fixed_registers_perm fixedListExample fixedListExampleSwapped PMUFixedEvent.zero
        (List.Perm.swap _ _ _)).2 (by decide)⟩,
    by decide, by decide⟩

/-! ## The coordinator: claim C11 -/

end Xpedite
